import Mathlib

/-!
Verification of the node-router / worker-relay subsystem of the inference
gateway.  The definitions below are a shallow embedding of
`src/modules/inference/node-router.service.ts` and
`src/modules/inference/agent-relay.service.ts`: pure functions mirror the
methods, explicit state records mirror the service fields, wall-clock times
are `Nat` milliseconds (or `Int` seconds where the source divides by 1000),
and JavaScript numbers that only ever hold exact values are modelled as `ℚ`.
-/

/-- ASCII lowercasing, written by structural recursion over the character
list so that it evaluates inside the kernel; it models the JavaScript
`toLowerCase()` calls of the service (all compared strings are ASCII). -/
def String.lowerAscii (s : String) : String := String.mk (s.data.map Char.toLower)

namespace Plumise

/-- Node status, `'online' | 'offline'` in the source. -/
inductive NodeStatus where
  | online
  | offline
deriving DecidableEq, Repr

/-- Node type, `'openai' | 'pipeline' | 'ws-relay' | 'unknown'` in the source. -/
inductive NodeType where
  | openai
  | pipeline
  | wsRelay
  | unknown
deriving DecidableEq, Repr

/-- Mirror of the `NodeInfo` interface of `node-router.service.ts`. -/
structure NodeInfo where
  url : String
  address : String
  status : NodeStatus
  lastHealthCheck : Nat
  consecutiveFailures : Nat
  nodeType : NodeType
  capacityScore : ℚ
  cooldownUntil : Nat
deriving DecidableEq, Repr

/-- `this.maxConsecutiveFailures = 3` in the service. -/
def maxConsecutiveFailures : Nat := 3

/-- `this.cooldownDuration = 30000` (30 s) in the service. -/
def cooldownDuration : Nat := 30000

/-- Mirror of `markNodeFailed` (request-path failure accounting): increment the
counter and, upon reaching the threshold, set `cooldownUntil = now + cooldownDuration`.
The status field is not touched by this method. -/
def markNodeFailed (now : Nat) (node : NodeInfo) : NodeInfo :=
  let n := { node with consecutiveFailures := node.consecutiveFailures + 1 }
  if maxConsecutiveFailures ≤ n.consecutiveFailures then
    { n with cooldownUntil := now + cooldownDuration }
  else
    n

/-- Mirror of the `catch` branch of `checkNodesHealth` (health-prober failure
path): increment the counter, set status to offline upon reaching the
threshold, and stamp `lastHealthCheck`.  The cooldown field is not touched. -/
def checkNodesHealthFailure (now : Nat) (node : NodeInfo) : NodeInfo :=
  let n := { node with consecutiveFailures := node.consecutiveFailures + 1 }
  let n :=
    if maxConsecutiveFailures ≤ n.consecutiveFailures then
      { n with status := NodeStatus.offline }
    else
      n
  { n with lastHealthCheck := now }

/-- A node two failures short of nothing: one more failure reaches the threshold. -/
def nodeAtTwoFailures : NodeInfo :=
  { url := "http://node-a.example", address := "", status := NodeStatus.online,
    lastHealthCheck := 0, consecutiveFailures := 2, nodeType := NodeType.unknown,
    capacityScore := 1, cooldownUntil := 0 }

/-- C1 counterexample: on the request path, reaching the threshold sets the
cooldown but leaves the node online (not offline); on the health-prober path,
reaching the threshold sets the node offline but leaves `cooldownUntil`
untouched (here 0, far in the past of `now = 1000`).  So neither failure path
makes the node simultaneously offline and in cooldown as the claim states. -/
theorem C1_counterexample :
    ((markNodeFailed 1000 nodeAtTwoFailures).consecutiveFailures = maxConsecutiveFailures ∧
      (markNodeFailed 1000 nodeAtTwoFailures).cooldownUntil = 1000 + cooldownDuration ∧
      (markNodeFailed 1000 nodeAtTwoFailures).status ≠ NodeStatus.offline) ∧
    ((checkNodesHealthFailure 1000 nodeAtTwoFailures).consecutiveFailures = maxConsecutiveFailures ∧
      (checkNodesHealthFailure 1000 nodeAtTwoFailures).status = NodeStatus.offline ∧
      ¬ 1000 < (checkNodesHealthFailure 1000 nodeAtTwoFailures).cooldownUntil) := by
  decide

/-- C1 amended: each failure path applies only half of the claimed effect.
When the counter reaches the threshold, `markNodeFailed` (request path) sets
`cooldownUntil = now + cooldownDuration` but leaves the status unchanged, and
the health-prober failure branch sets the status to offline but leaves
`cooldownUntil` unchanged; below the threshold each leaves the respective
field unchanged as well. -/
theorem C1_amended (now : Nat) (node : NodeInfo) :
    ((markNodeFailed now node).consecutiveFailures = node.consecutiveFailures + 1 ∧
      (markNodeFailed now node).status = node.status ∧
      (maxConsecutiveFailures ≤ node.consecutiveFailures + 1 →
        (markNodeFailed now node).cooldownUntil = now + cooldownDuration) ∧
      (node.consecutiveFailures + 1 < maxConsecutiveFailures →
        (markNodeFailed now node).cooldownUntil = node.cooldownUntil)) ∧
    ((checkNodesHealthFailure now node).consecutiveFailures = node.consecutiveFailures + 1 ∧
      (checkNodesHealthFailure now node).cooldownUntil = node.cooldownUntil ∧
      (maxConsecutiveFailures ≤ node.consecutiveFailures + 1 →
        (checkNodesHealthFailure now node).status = NodeStatus.offline) ∧
      (node.consecutiveFailures + 1 < maxConsecutiveFailures →
        (checkNodesHealthFailure now node).status = node.status)) := by
  constructor
  · unfold markNodeFailed
    by_cases h : maxConsecutiveFailures ≤ node.consecutiveFailures + 1
    · simp [h]
    · simp [h]
  · unfold checkNodesHealthFailure
    by_cases h : maxConsecutiveFailures ≤ node.consecutiveFailures + 1
    · simp [h]
    · simp [h]

/-- Mirror of the elements of `getConnectedAgents()` of the relay service. -/
structure RelayAgent where
  address : String
  model : String
deriving DecidableEq, Repr

/-- Mirror of the `PipelineNode` interface of `node-router.service.ts`. -/
structure PipelineNode where
  address : String
  grpcEndpoint : String
  httpEndpoint : String
  layerStart : Int
  layerEnd : Int
  pipelineOrder : Int
  ready : Bool
deriving DecidableEq, Repr

/-- The synthetic URL `ws-relay://<address>` used for relay candidates. -/
def wsKey (address : String) : String := "ws-relay://" ++ address

/-- Mirror of `this.capacityCache.get(addr.toLowerCase()) || 1.0`: a missing or
zero (falsy) cached value falls back to 1.0. -/
def cacheCapacity (cache : String → Option ℚ) (address : String) : ℚ :=
  match cache address.lowerAscii with
  | some v => if v = 0 then 1 else v
  | none => 1

/-- The `NodeInfo` literal pushed for a connected relay agent. -/
def mkRelayNode (cache : String → Option ℚ) (now : Nat) (a : RelayAgent) : NodeInfo :=
  { url := wsKey a.address, address := a.address, status := NodeStatus.online,
    lastHealthCheck := now, consecutiveFailures := 0, nodeType := NodeType.wsRelay,
    capacityScore := cacheCapacity cache a.address, cooldownUntil := 0 }

/-- First loop of `getCandidateNodes`: connected relay agents.  Carries the
`seen` URL set and the `seenAddresses` set (both as lists) exactly as the
source does; returns the candidates pushed plus the final sets. -/
def relayPass (cache : String → Option ℚ) (now : Nat) :
    List RelayAgent → List String → List String →
    List NodeInfo × List String × List String
  | [], seen, seenA => ([], seen, seenA)
  | a :: rest, seen, seenA =>
    if wsKey a.address ∈ seen then
      relayPass cache now rest seen seenA
    else
      let r := relayPass cache now rest (wsKey a.address :: seen) (a.address.lowerAscii :: seenA)
      (mkRelayNode cache now a :: r.1, r.2)

/-- Second loop of `getCandidateNodes`: topology nodes.  A node skipped for
being a non-entry pipeline node still claims its URL and address in the seen
sets first, exactly as in the source (the sets are updated before that check). -/
def topoPass (registry : List NodeInfo) (now : Nat) :
    List PipelineNode → List String → List String →
    List NodeInfo × List String × List String
  | [], seen, seenA => ([], seen, seenA)
  | p :: rest, seen, seenA =>
    if p.ready = false ∨ p.httpEndpoint = "" then
      topoPass registry now rest seen seenA
    else if p.address.lowerAscii ∈ seenA then
      topoPass registry now rest seen seenA
    else
      match registry.find? (fun n => n.url = p.httpEndpoint) with
      | none => topoPass registry now rest seen seenA
      | some nodeInfo =>
        if nodeInfo.status = NodeStatus.offline then
          topoPass registry now rest seen seenA
        else if now < nodeInfo.cooldownUntil then
          topoPass registry now rest seen seenA
        else if nodeInfo.url ∈ seen then
          topoPass registry now rest seen seenA
        else if nodeInfo.nodeType = NodeType.pipeline ∧ p.pipelineOrder ≠ 0 then
          topoPass registry now rest (nodeInfo.url :: seen) (p.address.lowerAscii :: seenA)
        else
          let r := topoPass registry now rest (nodeInfo.url :: seen) (p.address.lowerAscii :: seenA)
          (nodeInfo :: r.1, r.2)

/-- Third loop of `getCandidateNodes`: remaining registry nodes.  Note the
source checks `seenAddresses` here but never adds to it. -/
def regPass (now : Nat) :
    List NodeInfo → List String → List String →
    List NodeInfo × List String × List String
  | [], seen, seenA => ([], seen, seenA)
  | n :: rest, seen, seenA =>
    if n.status = NodeStatus.offline then
      regPass now rest seen seenA
    else if now < n.cooldownUntil then
      regPass now rest seen seenA
    else if n.address ≠ "" ∧ n.address.lowerAscii ∈ seenA then
      regPass now rest seen seenA
    else if n.url ∈ seen then
      regPass now rest seen seenA
    else
      let r := regPass now rest (n.url :: seen) seenA
      (n :: r.1, r.2)

/-- Mirror of `this.agentRelay?.hasConnectedAgents()`. -/
def hasConnectedAgents : Option (List RelayAgent) → Bool
  | some l => decide (l ≠ [])
  | none => false

/-- The agents iterated by the first loop (empty when the relay is absent or
has no connections). -/
def relayAgentsOf (relay : Option (List RelayAgent)) : List RelayAgent :=
  if hasConnectedAgents relay then relay.getD [] else []

/-- The topology nodes iterated by the second loop (`this.topology?.nodes?.length`
must be truthy). -/
def topoNodesOf : Option (List PipelineNode) → List PipelineNode
  | some l => if l = [] then [] else l
  | none => []

/-- Mirror of `getCandidateNodes`: relay agents first, then topology nodes,
then remaining registry nodes, sharing the `seen` / `seenAddresses` sets. -/
def getCandidateNodes (relay : Option (List RelayAgent)) (topo : Option (List PipelineNode))
    (registry : List NodeInfo) (cache : String → Option ℚ) (now : Nat) : List NodeInfo :=
  let r1 := relayPass cache now (relayAgentsOf relay) [] []
  let r2 := topoPass registry now (topoNodesOf topo) r1.2.1 r1.2.2
  let r3 := regPass now registry r2.2.1 r2.2.2
  r1.1 ++ r2.1 ++ r3.1

/-- Every relay candidate is online with a zero cooldown, by construction. -/
lemma relayPass_online (cache : String → Option ℚ) (now : Nat) :
    ∀ (agents : List RelayAgent) (seen seenA : List String),
      ∀ c ∈ (relayPass cache now agents seen seenA).1,
        c.status = NodeStatus.online ∧ c.cooldownUntil = 0 := by
  intro agents
  induction agents with
  | nil =>
    intro seen seenA c hc
    simp [relayPass] at hc
  | cons a rest ih =>
    intro seen seenA c hc
    by_cases h : wsKey a.address ∈ seen
    · rw [relayPass, if_pos h] at hc
      exact ih seen seenA c hc
    · rw [relayPass, if_neg h] at hc
      rcases List.mem_cons.mp hc with rfl | hc
      · exact ⟨rfl, rfl⟩
      · exact ih _ _ c hc

/-- URL bookkeeping of the relay loop: the seen set only grows, every pushed
candidate's URL lands in the final seen set and was fresh on arrival, and the
pushed URLs are pairwise distinct. -/
lemma relayPass_inv (cache : String → Option ℚ) (now : Nat) :
    ∀ (agents : List RelayAgent) (seen seenA : List String),
      (∀ u ∈ seen, u ∈ (relayPass cache now agents seen seenA).2.1) ∧
      (∀ c ∈ (relayPass cache now agents seen seenA).1,
        c.url ∈ (relayPass cache now agents seen seenA).2.1 ∧ c.url ∉ seen) ∧
      ((relayPass cache now agents seen seenA).1.map NodeInfo.url).Nodup := by
  intro agents
  induction agents with
  | nil =>
    intro seen seenA
    simp [relayPass]
  | cons a rest ih =>
    intro seen seenA
    by_cases h : wsKey a.address ∈ seen
    · rw [relayPass, if_pos h]
      exact ih seen seenA
    · rw [relayPass, if_neg h]
      obtain ⟨ih1, ih2, ih3⟩ := ih (wsKey a.address :: seen) (a.address.lowerAscii :: seenA)
      refine ⟨?_, ?_, ?_⟩
      · intro u hu
        exact ih1 u (List.mem_cons_of_mem _ hu)
      · intro c hc
        rcases List.mem_cons.mp hc with rfl | hc
        · exact ⟨ih1 _ (List.mem_cons_self _ _), h⟩
        · obtain ⟨h1, h2⟩ := ih2 c hc
          exact ⟨h1, fun hmem => h2 (List.mem_cons_of_mem _ hmem)⟩
      · refine List.nodup_cons.mpr ⟨?_, ih3⟩
        intro hmem
        rcases List.mem_map.mp hmem with ⟨c, hc, hurl⟩
        exact (ih2 c hc).2 (hurl ▸ List.mem_cons_self _ _)

/-- The address set of the relay loop only grows. -/
lemma relayPass_seenA_mono (cache : String → Option ℚ) (now : Nat) :
    ∀ (agents : List RelayAgent) (seen seenA : List String),
      ∀ u ∈ seenA, u ∈ (relayPass cache now agents seen seenA).2.2 := by
  intro agents
  induction agents with
  | nil =>
    intro seen seenA u hu
    simpa [relayPass] using hu
  | cons a rest ih =>
    intro seen seenA u hu
    by_cases h : wsKey a.address ∈ seen
    · rw [relayPass, if_pos h]
      exact ih seen seenA u hu
    · rw [relayPass, if_neg h]
      exact ih _ _ u (List.mem_cons_of_mem _ hu)

/-- The synthetic relay URL determines the agent address. -/
lemma wsKey_inj {a b : String} (h : wsKey a = wsKey b) : a = b := by
  have hd : (wsKey a).data = (wsKey b).data := congrArg String.data h
  simp only [wsKey, String.data_append] at hd
  exact String.ext (List.append_cancel_left hd)

/-- Every connected agent's lowercased address ends up in the relay loop's
address set, provided agents whose key was already seen on entry are covered
by the incoming address set. -/
lemma relayPass_addr_mem (cache : String → Option ℚ) (now : Nat) :
    ∀ (agents : List RelayAgent) (seen seenA : List String),
      (∀ a ∈ agents, wsKey a.address ∈ seen → a.address.lowerAscii ∈ seenA) →
      ∀ a ∈ agents, a.address.lowerAscii ∈ (relayPass cache now agents seen seenA).2.2 := by
  intro agents
  induction agents with
  | nil =>
    intro seen seenA _ a ha
    exact absurd ha (List.not_mem_nil a)
  | cons a rest ih =>
    intro seen seenA hcover b hb
    by_cases h : wsKey a.address ∈ seen
    · rw [relayPass, if_pos h]
      rcases List.mem_cons.mp hb with rfl | hb
      · exact relayPass_seenA_mono cache now rest seen seenA _
          (hcover b (List.mem_cons_self _ _) h)
      · exact ih seen seenA (fun x hx hk => hcover x (List.mem_cons_of_mem _ hx) hk) b hb
    · rw [relayPass, if_neg h]
      rcases List.mem_cons.mp hb with rfl | hb
      · exact relayPass_seenA_mono cache now rest _ _ _ (List.mem_cons_self _ _)
      · refine ih _ _ ?_ b hb
        intro x hx hk
        rcases List.mem_cons.mp hk with hkey | hkey
        · have : x.address = a.address := wsKey_inj hkey
          rw [this]
          exact List.mem_cons_self _ _
        · exact List.mem_cons_of_mem _ (hcover x (List.mem_cons_of_mem _ hx) hkey)

/-- Bookkeeping of the topology loop: both seen sets only grow, every pushed
candidate's URL lands in the final seen set and was fresh on arrival, pushed
URLs are pairwise distinct, and every pushed candidate is online and out of
cooldown (the loop filters on the registry record it pushes). -/
lemma topoPass_facts (registry : List NodeInfo) (now : Nat) :
    ∀ (ps : List PipelineNode) (seen seenA : List String),
      (∀ u ∈ seen, u ∈ (topoPass registry now ps seen seenA).2.1) ∧
      (∀ u ∈ seenA, u ∈ (topoPass registry now ps seen seenA).2.2) ∧
      (∀ c ∈ (topoPass registry now ps seen seenA).1,
        c.url ∈ (topoPass registry now ps seen seenA).2.1 ∧ c.url ∉ seen) ∧
      ((topoPass registry now ps seen seenA).1.map NodeInfo.url).Nodup ∧
      (∀ c ∈ (topoPass registry now ps seen seenA).1,
        c.status ≠ NodeStatus.offline ∧ c.cooldownUntil ≤ now) := by
  intro ps
  induction ps with
  | nil =>
    intro seen seenA
    simp [topoPass]
  | cons p rest ih =>
    intro seen seenA
    rw [topoPass]
    by_cases h1 : p.ready = false ∨ p.httpEndpoint = ""
    · rw [if_pos h1]
      exact ih seen seenA
    · rw [if_neg h1]
      by_cases h2 : p.address.lowerAscii ∈ seenA
      · rw [if_pos h2]
        exact ih seen seenA
      · rw [if_neg h2]
        cases hfind : registry.find? (fun n => n.url = p.httpEndpoint) with
        | none => exact ih seen seenA
        | some nodeInfo =>
          dsimp only
          by_cases h3 : nodeInfo.status = NodeStatus.offline
          · rw [if_pos h3]
            exact ih seen seenA
          · rw [if_neg h3]
            by_cases h4 : now < nodeInfo.cooldownUntil
            · rw [if_pos h4]
              exact ih seen seenA
            · rw [if_neg h4]
              by_cases h5 : nodeInfo.url ∈ seen
              · rw [if_pos h5]
                exact ih seen seenA
              · rw [if_neg h5]
                by_cases h6 : nodeInfo.nodeType = NodeType.pipeline ∧ p.pipelineOrder ≠ 0
                · rw [if_pos h6]
                  obtain ⟨s1, s2, s3, s4, s5⟩ := ih (nodeInfo.url :: seen) (p.address.lowerAscii :: seenA)
                  refine ⟨?_, ?_, ?_, s4, s5⟩
                  · intro u hu
                    exact s1 u (List.mem_cons_of_mem _ hu)
                  · intro u hu
                    exact s2 u (List.mem_cons_of_mem _ hu)
                  · intro c hc
                    obtain ⟨hm, hf⟩ := s3 c hc
                    exact ⟨hm, fun hmem => hf (List.mem_cons_of_mem _ hmem)⟩
                · rw [if_neg h6]
                  obtain ⟨s1, s2, s3, s4, s5⟩ := ih (nodeInfo.url :: seen) (p.address.lowerAscii :: seenA)
                  refine ⟨?_, ?_, ?_, ?_, ?_⟩
                  · intro u hu
                    exact s1 u (List.mem_cons_of_mem _ hu)
                  · intro u hu
                    exact s2 u (List.mem_cons_of_mem _ hu)
                  · intro c hc
                    rcases List.mem_cons.mp hc with rfl | hc
                    · exact ⟨s1 _ (List.mem_cons_self _ _), h5⟩
                    · obtain ⟨hm, hf⟩ := s3 c hc
                      exact ⟨hm, fun hmem => hf (List.mem_cons_of_mem _ hmem)⟩
                  · refine List.nodup_cons.mpr ⟨?_, s4⟩
                    intro hmem
                    rcases List.mem_map.mp hmem with ⟨c, hc, hurl⟩
                    exact (s3 c hc).2 (hurl ▸ List.mem_cons_self _ _)
                  · intro c hc
                    rcases List.mem_cons.mp hc with rfl | hc
                    · exact ⟨h3, Nat.not_lt.mp h4⟩
                    · exact s5 c hc

/-- Bookkeeping of the registry loop: the seen set only grows, URLs of pushed
candidates are fresh and pairwise distinct, every pushed candidate is online
and out of cooldown, and a pushed candidate with a non-empty address has a
lowercased address outside the incoming address set.  The loop never adds to
the address set. -/
lemma regPass_facts (now : Nat) :
    ∀ (registry : List NodeInfo) (seen seenA : List String),
      (∀ u ∈ seen, u ∈ (regPass now registry seen seenA).2.1) ∧
      (∀ c ∈ (regPass now registry seen seenA).1,
        c.url ∈ (regPass now registry seen seenA).2.1 ∧ c.url ∉ seen) ∧
      ((regPass now registry seen seenA).1.map NodeInfo.url).Nodup ∧
      (∀ c ∈ (regPass now registry seen seenA).1,
        c.status ≠ NodeStatus.offline ∧ c.cooldownUntil ≤ now) ∧
      (∀ c ∈ (regPass now registry seen seenA).1,
        c.address ≠ "" → c.address.lowerAscii ∉ seenA) := by
  intro registry
  induction registry with
  | nil =>
    intro seen seenA
    simp [regPass]
  | cons n rest ih =>
    intro seen seenA
    rw [regPass]
    by_cases h1 : n.status = NodeStatus.offline
    · rw [if_pos h1]
      exact ih seen seenA
    · rw [if_neg h1]
      by_cases h2 : now < n.cooldownUntil
      · rw [if_pos h2]
        exact ih seen seenA
      · rw [if_neg h2]
        by_cases h3 : n.address ≠ "" ∧ n.address.lowerAscii ∈ seenA
        · rw [if_pos h3]
          exact ih seen seenA
        · rw [if_neg h3]
          by_cases h4 : n.url ∈ seen
          · rw [if_pos h4]
            exact ih seen seenA
          · rw [if_neg h4]
            obtain ⟨s1, s2, s3, s4, s5⟩ := ih (n.url :: seen) seenA
            refine ⟨?_, ?_, ?_, ?_, ?_⟩
            · intro u hu
              exact s1 u (List.mem_cons_of_mem _ hu)
            · intro c hc
              rcases List.mem_cons.mp hc with rfl | hc
              · exact ⟨s1 _ (List.mem_cons_self _ _), h4⟩
              · obtain ⟨hm, hf⟩ := s2 c hc
                exact ⟨hm, fun hmem => hf (List.mem_cons_of_mem _ hmem)⟩
            · refine List.nodup_cons.mpr ⟨?_, s3⟩
              intro hmem
              rcases List.mem_map.mp hmem with ⟨c, hc, hurl⟩
              exact (s2 c hc).2 (hurl ▸ List.mem_cons_self _ _)
            · intro c hc
              rcases List.mem_cons.mp hc with rfl | hc
              · exact ⟨h1, Nat.not_lt.mp h2⟩
              · exact s4 c hc
            · intro c hc hne
              rcases List.mem_cons.mp hc with rfl | hc
              · intro hmem
                exact h3 ⟨hne, hmem⟩
              · exact s5 c hc hne

/-- C9: every entry of a candidate pool is online and out of cooldown at the
time the pool is built — so no registry node with offline status and no node
with `cooldownUntil > now` ever appears, regardless of which of the three
loops admitted it. -/
theorem C9_pool_excludes_offline_and_cooldown (relay : Option (List RelayAgent))
    (topo : Option (List PipelineNode)) (registry : List NodeInfo)
    (cache : String → Option ℚ) (now : Nat) :
    ∀ c ∈ getCandidateNodes relay topo registry cache now,
      c.status = NodeStatus.online ∧ c.cooldownUntil ≤ now := by
  intro c hc
  simp only [getCandidateNodes, List.mem_append] at hc
  rcases hc with (h | h) | h
  · obtain ⟨hs, hcd⟩ := relayPass_online cache now (relayAgentsOf relay) [] [] c h
    exact ⟨hs, by rw [hcd]; exact Nat.zero_le now⟩
  · obtain ⟨hs, hcd⟩ := (topoPass_facts registry now (topoNodesOf topo) _ _).2.2.2.2 c h
    refine ⟨?_, hcd⟩
    cases h' : c.status
    · rfl
    · exact absurd h' hs
  · obtain ⟨hs, hcd⟩ := (regPass_facts now registry _ _).2.2.2.1 c h
    refine ⟨?_, hcd⟩
    cases h' : c.status
    · rfl
    · exact absurd h' hs

/-- Witness for `C9_pool_excludes_offline_and_cooldown`: the single static
node is in the pool at time 5 and is indeed online and out of cooldown. -/
theorem C9_pool_witness :
    nodeAtTwoFailures.status = NodeStatus.online ∧ nodeAtTwoFailures.cooldownUntil ≤ 5 :=
  C9_pool_excludes_offline_and_cooldown none none [nodeAtTwoFailures] (fun _ => none) 5
    nodeAtTwoFailures (by decide)

/-- First registry node with a duplicated wallet address. -/
def dupAddrNodeA : NodeInfo :=
  { url := "http://a.example", address := "0xAbCd", status := NodeStatus.online,
    lastHealthCheck := 0, consecutiveFailures := 0, nodeType := NodeType.unknown,
    capacityScore := 1, cooldownUntil := 0 }

/-- Second registry node carrying the same wallet address at another URL. -/
def dupAddrNodeB : NodeInfo :=
  { url := "http://b.example", address := "0xAbCd", status := NodeStatus.online,
    lastHealthCheck := 0, consecutiveFailures := 0, nodeType := NodeType.unknown,
    capacityScore := 1, cooldownUntil := 0 }

/-- C2 counterexample: with no relay agents and no topology, two registry
nodes that share the same non-empty wallet address at different URLs are both
admitted to the pool — the registry loop consults `seenAddresses` but never
adds to it, so the claimed address-deduplication fails. -/
theorem C2_counterexample :
    getCandidateNodes none none [dupAddrNodeA, dupAddrNodeB] (fun _ => none) 0 =
      [dupAddrNodeA, dupAddrNodeB] ∧
    dupAddrNodeA.address = dupAddrNodeB.address ∧
    dupAddrNodeA.address ≠ "" ∧
    dupAddrNodeA.url ≠ dupAddrNodeB.url := by
  refine ⟨?_, by decide, by decide, by decide⟩
  rfl

/-- C2 amended: no two pool entries share a URL, and the pool is assembled
with the fixed priority relay → topology → registry over shared seen sets;
a registry-loop entry with a non-empty wallet address never shares it
(case-insensitively) with any connected relay agent.  Address deduplication
is however incomplete: two registry entries may share a non-empty address
(see the counterexample), because the registry loop does not record the
addresses it admits. -/
theorem C2_amended (relay : Option (List RelayAgent)) (topo : Option (List PipelineNode))
    (registry : List NodeInfo) (cache : String → Option ℚ) (now : Nat) :
    ((getCandidateNodes relay topo registry cache now).map NodeInfo.url).Nodup ∧
    (∀ c ∈ (regPass now registry
        (topoPass registry now (topoNodesOf topo)
          (relayPass cache now (relayAgentsOf relay) [] []).2.1
          (relayPass cache now (relayAgentsOf relay) [] []).2.2).2.1
        (topoPass registry now (topoNodesOf topo)
          (relayPass cache now (relayAgentsOf relay) [] []).2.1
          (relayPass cache now (relayAgentsOf relay) [] []).2.2).2.2).1,
      c.address ≠ "" → ∀ a ∈ relayAgentsOf relay, c.address.lowerAscii ≠ a.address.lowerAscii) := by
  obtain ⟨r1seen, r1url, r1nodup⟩ := relayPass_inv cache now (relayAgentsOf relay) [] []
  obtain ⟨t1, t2, t3, t4, t5⟩ := topoPass_facts registry now (topoNodesOf topo)
    (relayPass cache now (relayAgentsOf relay) [] []).2.1
    (relayPass cache now (relayAgentsOf relay) [] []).2.2
  obtain ⟨g1, g2, g3, g4, g5⟩ := regPass_facts now registry
    (topoPass registry now (topoNodesOf topo)
      (relayPass cache now (relayAgentsOf relay) [] []).2.1
      (relayPass cache now (relayAgentsOf relay) [] []).2.2).2.1
    (topoPass registry now (topoNodesOf topo)
      (relayPass cache now (relayAgentsOf relay) [] []).2.1
      (relayPass cache now (relayAgentsOf relay) [] []).2.2).2.2
  constructor
  · have hsplit : getCandidateNodes relay topo registry cache now =
        (relayPass cache now (relayAgentsOf relay) [] []).1 ++
          (topoPass registry now (topoNodesOf topo)
            (relayPass cache now (relayAgentsOf relay) [] []).2.1
            (relayPass cache now (relayAgentsOf relay) [] []).2.2).1 ++
          (regPass now registry
            (topoPass registry now (topoNodesOf topo)
              (relayPass cache now (relayAgentsOf relay) [] []).2.1
              (relayPass cache now (relayAgentsOf relay) [] []).2.2).2.1
            (topoPass registry now (topoNodesOf topo)
              (relayPass cache now (relayAgentsOf relay) [] []).2.1
              (relayPass cache now (relayAgentsOf relay) [] []).2.2).2.2).1 := rfl
    rw [hsplit, List.map_append, List.map_append, List.nodup_append, List.nodup_append]
    refine ⟨⟨r1nodup, t4, ?_⟩, g3, ?_⟩
    · intro u hu hu2
      rcases List.mem_map.mp hu with ⟨c, hc, rfl⟩
      rcases List.mem_map.mp hu2 with ⟨d, hd, hurl⟩
      exact (t3 d hd).2 (hurl ▸ (r1url c hc).1)
    · intro u hu hu3
      rcases List.mem_map.mp hu3 with ⟨d, hd, hurl⟩
      rcases List.mem_append.mp hu with hu | hu
      · rcases List.mem_map.mp hu with ⟨c, hc, rfl⟩
        exact (g2 d hd).2 (hurl ▸ t1 _ ((r1url c hc).1))
      · rcases List.mem_map.mp hu with ⟨c, hc, rfl⟩
        exact (g2 d hd).2 (hurl ▸ (t3 c hc).1)
  · intro c hc hne a ha
    intro heq
    have hmem : a.address.lowerAscii ∈
        (relayPass cache now (relayAgentsOf relay) [] []).2.2 :=
      relayPass_addr_mem cache now (relayAgentsOf relay) [] []
        (fun _ _ hk => absurd hk (List.not_mem_nil _)) a ha
    exact g5 c hc hne (heq ▸ t2 _ hmem)

/-- A relay agent used by the `C2_amended` witness. -/
def agentB : RelayAgent := { address := "0xB", model := "model-m" }

/-- A registry node used by the `C2_amended` witness. -/
def nodeC : NodeInfo :=
  { url := "http://c.example", address := "0xC", status := NodeStatus.online,
    lastHealthCheck := 0, consecutiveFailures := 0, nodeType := NodeType.unknown,
    capacityScore := 1, cooldownUntil := 0 }

/-- Witness for `C2_amended`: with one connected relay agent and one registry
node, the registry entry's lowercased address differs from the agent's. -/
theorem C2_amended_witness :
    nodeC.address.lowerAscii ≠ agentB.address.lowerAscii := by
  have h := (C2_amended (some [agentB]) none [nodeC] (fun _ => none) 0).2
  have hmem : nodeC ∈ (regPass 0 [nodeC]
      (topoPass [nodeC] 0 (topoNodesOf none)
        (relayPass (fun _ => none) 0 (relayAgentsOf (some [agentB])) [] []).2.1
        (relayPass (fun _ => none) 0 (relayAgentsOf (some [agentB])) [] []).2.2).2.1
      (topoPass [nodeC] 0 (topoNodesOf none)
        (relayPass (fun _ => none) 0 (relayAgentsOf (some [agentB])) [] []).2.1
        (relayPass (fun _ => none) 0 (relayAgentsOf (some [agentB])) [] []).2.2).2.2).1 := by
    show nodeC ∈ [nodeC]
    exact List.mem_cons_self _ _
  exact h nodeC hmem (by decide) agentB (by decide)

/-- `MIN_WEIGHT = 0.1` in `selectNode`. -/
def MIN_WEIGHT : ℚ := 1 / 10

/-- JavaScript `Math.max` on the exact rationals this code computes with. -/
def jsMax (a b : ℚ) : ℚ := if a ≤ b then b else a

/-- The per-candidate weight computed by `selectNode`:
`Math.max((c.capacityScore || 1.0) / (1 + inFlight), MIN_WEIGHT)`; a zero
(falsy) capacity score falls back to 1.0. -/
def nodeWeight (inFl : String → Nat) (c : NodeInfo) : ℚ :=
  jsMax ((if c.capacityScore = 0 then 1 else c.capacityScore) / (1 + (inFl c.url : ℚ))) MIN_WEIGHT

/-- The weight formula as the specification states it:
`max(capacity / (1 + in_flight), 0.1)` on the candidate's capacity score.
It agrees with `nodeWeight` whenever the capacity score is positive, which
the data model guarantees (capacity scores are positive benchmarks defaulting
to 1.0). -/
def specWeight (inFl : String → Nat) (c : NodeInfo) : ℚ :=
  jsMax (c.capacityScore / (1 + (inFl c.url : ℚ))) MIN_WEIGHT

/-- The subtraction loop of `selectNode`: walk the candidates, subtracting
each weight from the running draw, returning the first candidate where the
draw falls to zero or below; if the loop completes, return the last
candidate. -/
def pickLoop (x : ℚ) : List (NodeInfo × ℚ) → Option NodeInfo
  | [] => none
  | (n, w) :: rest =>
    if x - w ≤ 0 then some n
    else
      match pickLoop (x - w) rest with
      | some m => some m
      | none => some n

/-- The candidates surviving the `excluded` filter of `selectNode`. -/
def availableOf (cands : List NodeInfo) (excluded : List String) : List NodeInfo :=
  cands.filter (fun c => decide (c.url ∉ excluded))

/-- Mirror of `selectNode`: filter out excluded URLs, short-circuit the empty
and singleton pools, otherwise run the weighted subtraction loop on
`r * totalWeight`, where `r` stands for the `Math.random()` draw. -/
def selectNode (inFl : String → Nat) (cands : List NodeInfo) (excluded : List String)
    (r : ℚ) : Option NodeInfo :=
  let available := availableOf cands excluded
  if available.length = 0 then none
  else if available.length = 1 then available.head?
  else
    let weights := available.map (nodeWeight inFl)
    pickLoop (r * weights.sum) (available.zip weights)

/-- Prefix sums of the specification weights over a candidate list. -/
def specPrefixSum (inFl : String → Nat) (available : List NodeInfo) (k : Nat) : ℚ :=
  ((available.map (specWeight inFl)).take k).sum

/-- Every weight dominates its second argument, hence `MIN_WEIGHT`. -/
lemma le_jsMax_right (a b : ℚ) : b ≤ jsMax a b := by
  unfold jsMax
  by_cases h : a ≤ b
  · rw [if_pos h]
  · rw [if_neg h]
    exact le_of_not_le h

/-- Weights are nonnegative. -/
lemma nodeWeight_nonneg (inFl : String → Nat) (c : NodeInfo) : 0 ≤ nodeWeight inFl c := by
  have h : MIN_WEIGHT ≤ nodeWeight inFl c := le_jsMax_right _ _
  have h0 : (0 : ℚ) ≤ MIN_WEIGHT := by norm_num [MIN_WEIGHT]
  exact le_trans h0 h

/-- On positive capacity scores the implementation weight equals the
specification weight. -/
lemma nodeWeight_eq_specWeight (inFl : String → Nat) (c : NodeInfo)
    (h : 0 < c.capacityScore) : nodeWeight inFl c = specWeight inFl c := by
  unfold nodeWeight specWeight
  rw [if_neg (ne_of_gt h)]

/-- The loop never returns `none` on a nonempty list. -/
lemma pickLoop_isSome (x : ℚ) (l : List (NodeInfo × ℚ)) (h : l ≠ []) :
    (pickLoop x l).isSome := by
  cases l with
  | nil => exact absurd rfl h
  | cons p rest =>
    obtain ⟨n, w⟩ := p
    rw [pickLoop]
    by_cases hx : x - w ≤ 0
    · rw [if_pos hx]
      rfl
    · rw [if_neg hx]
      cases hrec : pickLoop (x - w) rest with
      | some m => rfl
      | none => rfl

/-- Whatever the loop returns is one of the listed candidates. -/
lemma pickLoop_mem (x : ℚ) (l : List (NodeInfo × ℚ)) (m : NodeInfo)
    (h : pickLoop x l = some m) : ∃ w, (m, w) ∈ l := by
  induction l generalizing x with
  | nil => simp [pickLoop] at h
  | cons p rest ih =>
    obtain ⟨n, w⟩ := p
    rw [pickLoop] at h
    by_cases hx : x - w ≤ 0
    · rw [if_pos hx] at h
      refine ⟨w, ?_⟩
      rw [← Option.some_inj.mp h]
      exact List.mem_cons_self _ _
    · rw [if_neg hx] at h
      cases hrec : pickLoop (x - w) rest with
      | some m' =>
        rw [hrec] at h
        obtain ⟨w', hw'⟩ := ih (x := x - w) (h ▸ hrec)
        exact ⟨w', List.mem_cons_of_mem _ hw'⟩
      | none =>
        rw [hrec] at h
        refine ⟨w, ?_⟩
        rw [← Option.some_inj.mp h]
        exact List.mem_cons_self _ _

/-- Prefix sums over a cons. -/
lemma psum_cons (inFl : String → Nat) (c : NodeInfo) (t : List NodeInfo) (k : Nat) :
    specPrefixSum inFl (c :: t) (k + 1) = specWeight inFl c + specPrefixSum inFl t k := by
  simp [specPrefixSum]

/-- Prefix sums of nonnegative weights are nonnegative. -/
lemma psum_nonneg (inFl : String → Nat) (l : List NodeInfo) (k : Nat) :
    0 ≤ specPrefixSum inFl l k := by
  apply List.sum_nonneg
  intro a ha
  have := List.take_subset k (l.map (specWeight inFl)) ha
  rcases List.mem_map.mp this with ⟨c, _, rfl⟩
  have h : MIN_WEIGHT ≤ specWeight inFl c := le_jsMax_right _ _
  have h0 : (0 : ℚ) ≤ MIN_WEIGHT := by norm_num [MIN_WEIGHT]
  exact le_trans h0 h

/-- The interval characterization of the subtraction loop, stated over the
parallel weight list: when the draw lands strictly above the prefix sum at
`i` and at or below the prefix sum at `i + 1`, the loop picks candidate `i`. -/
lemma pickLoop_interval (inFl : String → Nat) :
    ∀ (l : List NodeInfo) (i : Nat) (hi : i < l.length) (x : ℚ),
      specPrefixSum inFl l i < x → x ≤ specPrefixSum inFl l (i + 1) →
      pickLoop x (l.zip (l.map (specWeight inFl))) = some (l.get ⟨i, hi⟩) := by
  intro l
  induction l with
  | nil =>
    intro i hi
    exact absurd hi (by simp)
  | cons c t ih =>
    intro i hi x hlow hhigh
    cases i with
    | zero =>
      have hx : x ≤ specWeight inFl c := by
        have : specPrefixSum inFl (c :: t) 1 = specWeight inFl c := by
          simp [specPrefixSum]
        rw [this] at hhigh
        exact hhigh
      simp only [List.zip_cons_cons, pickLoop, List.get]
      rw [if_pos (by linarith)]
    | succ i =>
      have hi' : i < t.length := by simpa using hi
      rw [psum_cons] at hlow hhigh
      have hwx : ¬ x - specWeight inFl c ≤ 0 := by
        have h0 : 0 ≤ specPrefixSum inFl t i := psum_nonneg inFl t i
        linarith
      simp only [List.zip_cons_cons, pickLoop, List.get]
      rw [if_neg hwx]
      have hrec : pickLoop (x - specWeight inFl c)
          (List.zipWith Prod.mk t (List.map (specWeight inFl) t)) = some (t.get ⟨i, hi'⟩) :=
        ih i hi' (x - specWeight inFl c) (by linarith) (by linarith)
      rw [hrec]

/-- The loop picks the head whenever the draw is at most the head's weight. -/
lemma pickLoop_first (inFl : String → Nat) (c : NodeInfo) (t : List NodeInfo) (x : ℚ)
    (hx : x ≤ specWeight inFl c) :
    pickLoop x ((c :: t).zip ((c :: t).map (specWeight inFl))) = some c := by
  simp only [List.map_cons, List.zip_cons_cons, pickLoop]
  rw [if_pos (by linarith)]

/-- The total implementation weight equals the full-length prefix sum of the
specification weights when all capacities are positive. -/
lemma weights_sum_eq (inFl : String → Nat) (l : List NodeInfo)
    (hpos : ∀ c ∈ l, 0 < c.capacityScore) :
    (l.map (nodeWeight inFl)).sum = specPrefixSum inFl l l.length := by
  have hmap : l.map (nodeWeight inFl) = l.map (specWeight inFl) :=
    List.map_congr_left (fun c hc => nodeWeight_eq_specWeight inFl c (hpos c hc))
  rw [hmap]
  unfold specPrefixSum
  rw [← List.length_map l (specWeight inFl), List.take_length]

/-- C4: the weighted random selection contract of `selectNode`, for pools
whose capacity scores are positive (the data model guarantees positivity:
capacity is a tok/s benchmark defaulting to 1.0).  Parts: (1) the selection
returns nothing iff no candidate survives the excluded filter; (2) a sole
survivor is returned outright; (3) with at least two survivors and the
uniform draw `r`, candidate `i` is returned whenever `r * totalWeight` lands
in the half-open interval between the prefix sums at `i` and `i + 1` (for
`i = 0` the interval is closed on the left since `r * totalWeight` can be 0);
(4) each such interval has length exactly `max(capacity/(1+inflight), 0.1)`,
so each candidate is chosen with probability proportional to exactly the
claimed weight. -/
theorem C4_selectNode (inFl : String → Nat) (cands : List NodeInfo)
    (excluded : List String) (r : ℚ)
    (hpos : ∀ c ∈ cands, 0 < c.capacityScore) :
    (selectNode inFl cands excluded r = none ↔ availableOf cands excluded = []) ∧
    (∀ c, availableOf cands excluded = [c] → selectNode inFl cands excluded r = some c) ∧
    (2 ≤ (availableOf cands excluded).length →
      (∀ i (hi : i < (availableOf cands excluded).length),
        specPrefixSum inFl (availableOf cands excluded) i <
            r * specPrefixSum inFl (availableOf cands excluded)
              (availableOf cands excluded).length →
        r * specPrefixSum inFl (availableOf cands excluded)
              (availableOf cands excluded).length ≤
            specPrefixSum inFl (availableOf cands excluded) (i + 1) →
        selectNode inFl cands excluded r =
          some ((availableOf cands excluded).get ⟨i, hi⟩)) ∧
      (∀ h0 : 0 < (availableOf cands excluded).length,
        0 ≤ r * specPrefixSum inFl (availableOf cands excluded)
              (availableOf cands excluded).length →
        r * specPrefixSum inFl (availableOf cands excluded)
              (availableOf cands excluded).length ≤
            specPrefixSum inFl (availableOf cands excluded) 1 →
        selectNode inFl cands excluded r =
          some ((availableOf cands excluded).get ⟨0, h0⟩))) ∧
    (∀ i (hi : i < (availableOf cands excluded).length),
      specPrefixSum inFl (availableOf cands excluded) (i + 1) -
          specPrefixSum inFl (availableOf cands excluded) i =
        specWeight inFl ((availableOf cands excluded).get ⟨i, hi⟩)) := by
  have hpos' : ∀ c ∈ availableOf cands excluded, 0 < c.capacityScore :=
    fun c hc => hpos c (List.mem_of_mem_filter hc)
  have hmap : (availableOf cands excluded).map (nodeWeight inFl) =
      (availableOf cands excluded).map (specWeight inFl) :=
    List.map_congr_left (fun c hc => nodeWeight_eq_specWeight inFl c (hpos' c hc))
  have hsum := weights_sum_eq inFl (availableOf cands excluded) hpos'
  refine ⟨⟨?_, ?_⟩, ?_, ?_, ?_⟩
  · intro h
    by_contra hne
    by_cases h0 : (availableOf cands excluded).length = 0
    · exact hne (List.length_eq_zero.mp h0)
    · by_cases h1 : (availableOf cands excluded).length = 1
      · have : selectNode inFl cands excluded r = (availableOf cands excluded).head? := by
          simp only [selectNode]
          rw [if_neg h0, if_pos h1]
        rw [this] at h
        cases hA : availableOf cands excluded with
        | nil => exact hne hA
        | cons a t => rw [hA] at h; exact Option.noConfusion h
      · have hsel : selectNode inFl cands excluded r =
            pickLoop (r * ((availableOf cands excluded).map (nodeWeight inFl)).sum)
              ((availableOf cands excluded).zip
                ((availableOf cands excluded).map (nodeWeight inFl))) := by
          simp only [selectNode]
          rw [if_neg h0, if_neg h1]
        have hzip : (availableOf cands excluded).zip
            ((availableOf cands excluded).map (nodeWeight inFl)) ≠ [] := by
          intro hz
          have := congrArg List.length hz
          rw [List.length_zip, List.length_map, Nat.min_self] at this
          exact h0 this
        have := pickLoop_isSome
          (r * ((availableOf cands excluded).map (nodeWeight inFl)).sum) _ hzip
        rw [← hsel, h] at this
        exact Bool.noConfusion this
  · intro h
    simp only [selectNode, h]
    rfl
  · intro c hc
    simp only [selectNode, hc]
    rfl
  · intro h2
    have h0 : ¬ (availableOf cands excluded).length = 0 := by omega
    have h1 : ¬ (availableOf cands excluded).length = 1 := by omega
    have hsel : selectNode inFl cands excluded r =
        pickLoop (r * ((availableOf cands excluded).map (nodeWeight inFl)).sum)
          ((availableOf cands excluded).zip
            ((availableOf cands excluded).map (nodeWeight inFl))) := by
      simp only [selectNode]
      rw [if_neg h0, if_neg h1]
    rw [hsel, hsum, hmap]
    constructor
    · intro i hi hlow hhigh
      exact pickLoop_interval inFl (availableOf cands excluded) i hi _ hlow hhigh
    · intro hlen hge hle
      obtain ⟨a, t, hA⟩ := List.exists_cons_of_ne_nil (List.ne_nil_of_length_pos hlen)
      have hle' : r * specPrefixSum inFl (availableOf cands excluded)
          (availableOf cands excluded).length ≤ specWeight inFl a := by
        have h1v : specPrefixSum inFl (availableOf cands excluded) 1 = specWeight inFl a := by
          rw [hA]
          simp [specPrefixSum]
        rw [← h1v]
        exact hle
      have hg : (availableOf cands excluded).get ⟨0, hlen⟩ = a := by
        rw [List.get_of_eq hA]
        rfl
      rw [hg, hA]
      rw [hA] at hle'
      exact pickLoop_first inFl a t _ hle'
  · intro i hi
    have hi' : i < ((availableOf cands excluded).map (specWeight inFl)).length := by
      simpa using hi
    unfold specPrefixSum
    rw [List.sum_take_succ _ i hi']
    simp only [List.getElem_map, List.get_eq_getElem]
    ring

/-- A capacity-1 candidate for the `C4_selectNode` witness. -/
def wNode1 : NodeInfo :=
  { url := "http://w1.example", address := "", status := NodeStatus.online,
    lastHealthCheck := 0, consecutiveFailures := 0, nodeType := NodeType.openai,
    capacityScore := 1, cooldownUntil := 0 }

/-- A capacity-3 candidate for the `C4_selectNode` witness. -/
def wNode3 : NodeInfo :=
  { url := "http://w3.example", address := "", status := NodeStatus.online,
    lastHealthCheck := 0, consecutiveFailures := 0, nodeType := NodeType.openai,
    capacityScore := 3, cooldownUntil := 0 }

/-- Witness for `C4_selectNode`: with weights 1 and 3 (total 4) and the draw
`r = 1/2`, the scaled draw 2 lands in the interval (1, 4] of the second
candidate, which is returned. -/
theorem C4_selectNode_witness :
    selectNode (fun _ => 0) [wNode1, wNode3] [] (1 / 2) = some wNode3 := by
  have hA : availableOf [wNode1, wNode3] [] = [wNode1, wNode3] := rfl
  have hpos : ∀ c ∈ [wNode1, wNode3], 0 < c.capacityScore := by
    intro c hc
    rcases List.mem_cons.mp hc with rfl | hc
    · norm_num [wNode1]
    · rcases List.mem_cons.mp hc with rfl | hc
      · norm_num [wNode3]
      · exact absurd hc (List.not_mem_nil c)
  have h := (C4_selectNode (fun _ => 0) [wNode1, wNode3] [] (1 / 2) hpos).2.2.1
  have h2 : (2 : Nat) ≤ (availableOf [wNode1, wNode3] []).length := by rw [hA]; rfl
  have hi : (1 : Nat) < (availableOf [wNode1, wNode3] []).length := by rw [hA]; norm_num
  have hlow : specPrefixSum (fun _ => 0) (availableOf [wNode1, wNode3] []) 1 <
      1 / 2 * specPrefixSum (fun _ => 0) (availableOf [wNode1, wNode3] [])
        (availableOf [wNode1, wNode3] []).length := by
    rw [hA]
    norm_num [specPrefixSum, specWeight, jsMax, MIN_WEIGHT, wNode1, wNode3]
  have hhigh : 1 / 2 * specPrefixSum (fun _ => 0) (availableOf [wNode1, wNode3] [])
        (availableOf [wNode1, wNode3] []).length ≤
      specPrefixSum (fun _ => 0) (availableOf [wNode1, wNode3] []) (1 + 1) := by
    rw [hA]
    norm_num [specPrefixSum, specWeight, jsMax, MIN_WEIGHT, wNode1, wNode3]
  exact (h h2).1 1 hi hlow hhigh

/-- Mirror of the chat message objects `{ role, content }`. -/
structure ChatMessage where
  role : String
  content : String
deriving DecidableEq, Repr

/-- Mirror of the `parameters` block of `AgentGenerateRequest`. -/
structure GenParameters where
  max_new_tokens : Option Nat
  temperature : Option ℚ
  top_p : Option ℚ
  repetition_penalty : Option ℚ
  do_sample : Option Bool
deriving DecidableEq, Repr

/-- Mirror of the `AgentGenerateRequest` interface. -/
structure AgentGenerateRequest where
  inputs : String
  messages : Option (List ChatMessage)
  parameters : Option GenParameters
deriving DecidableEq, Repr

/-- The literal continuation instruction sent as a user message. -/
def continueInstruction : String :=
  "Continue generating from exactly where you left off. Do not repeat any text."

/-- The literal marker inserted before the accumulated text on prompt-only
requests (including the two preceding newlines of the template). -/
def continuationMarker : String := "\n\nAssistant (partial, continue from here): "

/-- Mirror of `buildContinuationRequest`: requests with a non-empty message
list (`original.messages?.length` truthy) get the partial assistant message
and the continue instruction appended; otherwise the accumulated text is
embedded into the prompt after the marker. -/
def buildContinuationRequest (original : AgentGenerateRequest)
    (accumulatedTokens : String) : AgentGenerateRequest :=
  match original.messages with
  | some msgs =>
    if msgs.length ≠ 0 then
      { original with messages := some (msgs ++
          [{ role := "assistant", content := accumulatedTokens },
           { role := "user", content := continueInstruction }]) }
    else
      { original with inputs := original.inputs ++ continuationMarker ++ accumulatedTokens }
  | none =>
    { original with inputs := original.inputs ++ continuationMarker ++ accumulatedTokens }

/-- The two service-unavailable failures of the retry coordinator. -/
inductive FwdError where
  | noNodesAvailable
  | allNodesFailed
deriving DecidableEq, Repr

/-- The retry loop of `forwardRequest`, over a fuel bound (`maxRetries`), a
stream of random draws, and an abstract per-URL outcome (whether the attempt
against that node succeeds).  Returns the list of attempted URLs in order,
plus the URL of the successful attempt if any.  The selected node's URL is
added to `excluded` before its attempt, exactly as in the source. -/
def fwdLoop (inFl : String → Nat) (cands : List NodeInfo) (outcome : String → Bool) :
    List ℚ → List String → Nat → List String × Option String
  | _, _, 0 => ([], none)
  | draws, excluded, fuel + 1 =>
    match selectNode inFl cands excluded (draws.headD 0) with
    | none => ([], none)
    | some n =>
      if outcome n.url then
        ([n.url], some n.url)
      else
        let r := fwdLoop inFl cands outcome draws.tail (n.url :: excluded) fuel
        (n.url :: r.1, r.2)

/-- Mirror of `forwardRequest`: build the pool once, fail when it is empty,
otherwise run at most `min(|pool|, 5)` attempts and fail with the
all-nodes-failed error when none succeeds. -/
def forwardRequest (inFl : String → Nat) (cands : List NodeInfo) (outcome : String → Bool)
    (draws : List ℚ) : List String × Except FwdError String :=
  if cands.length = 0 then
    ([], Except.error FwdError.noNodesAvailable)
  else
    let r := fwdLoop inFl cands outcome draws [] (min cands.length 5)
    (r.1, match r.2 with
      | some u => Except.ok u
      | none => Except.error FwdError.allNodesFailed)

/-- One attempt of the streaming retry loop: the node URL attempted, the
accumulated text before the attempt, and the effective request sent. -/
structure StreamAttempt where
  url : String
  accBefore : String
  request : AgentGenerateRequest
deriving DecidableEq, Repr

/-- The retry loop of `forwardStreamRequest`: like `fwdLoop` but carrying the
accumulated text; each attempt sends the original request when nothing has
been accumulated and the continuation request otherwise, and a failed attempt
appends whatever text it emitted (`emit`) to the accumulator. -/
def fwdStreamLoop (inFl : String → Nat) (cands : List NodeInfo)
    (original : AgentGenerateRequest) (emit : Nat → String) (succeeds : Nat → Bool) :
    List ℚ → List String → String → Nat → Nat → List StreamAttempt × Option String
  | _, _, _, _, 0 => ([], none)
  | draws, excluded, acc, attempt, fuel + 1 =>
    match selectNode inFl cands excluded (draws.headD 0) with
    | none => ([], none)
    | some n =>
      let eff := if acc = "" then original else buildContinuationRequest original acc
      if succeeds attempt then
        ([⟨n.url, acc, eff⟩], some n.url)
      else
        let r := fwdStreamLoop inFl cands original emit succeeds draws.tail
          (n.url :: excluded) (acc ++ emit attempt) (attempt + 1) fuel
        (⟨n.url, acc, eff⟩ :: r.1, r.2)

/-- Mirror of `forwardStreamRequest`: pool built once, empty pool fails,
at most `min(|pool|, 5)` attempts starting from an empty accumulator. -/
def forwardStreamRequest (inFl : String → Nat) (cands : List NodeInfo)
    (original : AgentGenerateRequest) (emit : Nat → String) (succeeds : Nat → Bool)
    (draws : List ℚ) : List StreamAttempt × Except FwdError String :=
  if cands.length = 0 then
    ([], Except.error FwdError.noNodesAvailable)
  else
    let r := fwdStreamLoop inFl cands original emit succeeds draws [] "" 0 (min cands.length 5)
    (r.1, match r.2 with
      | some u => Except.ok u
      | none => Except.error FwdError.allNodesFailed)

/-- A node returned by `selectNode` is a candidate whose URL is not excluded. -/
lemma selectNode_mem (inFl : String → Nat) (cands : List NodeInfo)
    (excluded : List String) (r : ℚ) (n : NodeInfo)
    (h : selectNode inFl cands excluded r = some n) :
    n ∈ cands ∧ n.url ∉ excluded := by
  have hav : n ∈ availableOf cands excluded := by
    by_cases h0 : (availableOf cands excluded).length = 0
    · have hnone : selectNode inFl cands excluded r = none := by
        simp only [selectNode]
        rw [if_pos h0]
      rw [hnone] at h
      exact Option.noConfusion h
    · by_cases h1 : (availableOf cands excluded).length = 1
      · have hs : selectNode inFl cands excluded r = (availableOf cands excluded).head? := by
          simp only [selectNode]
          rw [if_neg h0, if_pos h1]
        rw [hs] at h
        cases hA : availableOf cands excluded with
        | nil =>
          rw [hA] at h
          exact Option.noConfusion h
        | cons a t =>
          rw [hA] at h
          have ha : a = n := Option.some_inj.mp h
          rw [← ha]
          exact List.mem_cons_self _ _
      · have hs : selectNode inFl cands excluded r =
            pickLoop (r * ((availableOf cands excluded).map (nodeWeight inFl)).sum)
              ((availableOf cands excluded).zip
                ((availableOf cands excluded).map (nodeWeight inFl))) := by
          simp only [selectNode]
          rw [if_neg h0, if_neg h1]
        rw [hs] at h
        obtain ⟨w, hw⟩ := pickLoop_mem _ _ _ h
        exact (List.of_mem_zip hw).1
  have hm := List.mem_filter.mp hav
  exact ⟨hm.1, of_decide_eq_true hm.2⟩

/-- Attempt accounting of the unary retry loop: at most `fuel` attempts, all
attempted URLs outside the incoming excluded set, and no URL attempted twice. -/
lemma fwdLoop_facts (inFl : String → Nat) (cands : List NodeInfo) (outcome : String → Bool) :
    ∀ (fuel : Nat) (draws : List ℚ) (excluded : List String),
      (fwdLoop inFl cands outcome draws excluded fuel).1.length ≤ fuel ∧
      (∀ u ∈ (fwdLoop inFl cands outcome draws excluded fuel).1, u ∉ excluded) ∧
      (fwdLoop inFl cands outcome draws excluded fuel).1.Nodup := by
  intro fuel
  induction fuel with
  | zero =>
    intro draws excluded
    simp [fwdLoop]
  | succ fuel ih =>
    intro draws excluded
    rw [fwdLoop]
    cases hsel : selectNode inFl cands excluded (draws.headD 0) with
    | none => simp
    | some n =>
      dsimp only
      have hn := selectNode_mem inFl cands excluded (draws.headD 0) n hsel
      by_cases hout : outcome n.url
      · rw [if_pos hout]
        refine ⟨by simp, ?_, by simp⟩
        intro u hu
        rcases List.mem_cons.mp hu with rfl | hu
        · exact hn.2
        · exact absurd hu (List.not_mem_nil u)
      · rw [if_neg hout]
        obtain ⟨ih1, ih2, ih3⟩ := ih draws.tail (n.url :: excluded)
        refine ⟨?_, ?_, ?_⟩
        · simpa using Nat.succ_le_succ ih1
        · intro u hu
          rcases List.mem_cons.mp hu with rfl | hu
          · exact hn.2
          · exact fun hmem => ih2 u hu (List.mem_cons_of_mem _ hmem)
        · refine List.nodup_cons.mpr ⟨?_, ih3⟩
          intro hmem
          exact ih2 _ hmem (List.mem_cons_self _ _)

/-- When every attempt fails, the unary retry loop never reports success. -/
lemma fwdLoop_allfail (inFl : String → Nat) (cands : List NodeInfo) (outcome : String → Bool)
    (hfail : ∀ u, outcome u = false) :
    ∀ (fuel : Nat) (draws : List ℚ) (excluded : List String),
      (fwdLoop inFl cands outcome draws excluded fuel).2 = none := by
  intro fuel
  induction fuel with
  | zero =>
    intro draws excluded
    simp [fwdLoop]
  | succ fuel ih =>
    intro draws excluded
    rw [fwdLoop]
    cases hsel : selectNode inFl cands excluded (draws.headD 0) with
    | none => simp
    | some n =>
      dsimp only
      rw [if_neg (by simp [hfail n.url])]
      exact ih draws.tail (n.url :: excluded)

/-- Attempt accounting of the streaming retry loop: at most `fuel` attempts,
attempted URLs fresh and pairwise distinct, every attempt's effective request
determined by its accumulated-text snapshot, and the first attempt's snapshot
equal to the incoming accumulator. -/
lemma fwdStreamLoop_facts (inFl : String → Nat) (cands : List NodeInfo)
    (original : AgentGenerateRequest) (emit : Nat → String) (succeeds : Nat → Bool) :
    ∀ (fuel : Nat) (draws : List ℚ) (excluded : List String) (acc : String) (attempt : Nat),
      (fwdStreamLoop inFl cands original emit succeeds draws excluded acc attempt fuel).1.length ≤ fuel ∧
      (∀ a ∈ (fwdStreamLoop inFl cands original emit succeeds draws excluded acc attempt fuel).1,
        a.url ∉ excluded) ∧
      ((fwdStreamLoop inFl cands original emit succeeds draws excluded acc attempt fuel).1.map
        StreamAttempt.url).Nodup ∧
      (∀ a ∈ (fwdStreamLoop inFl cands original emit succeeds draws excluded acc attempt fuel).1,
        a.request = if a.accBefore = "" then original
          else buildContinuationRequest original a.accBefore) ∧
      (∀ a, (fwdStreamLoop inFl cands original emit succeeds draws excluded acc attempt fuel).1.head? =
          some a → a.accBefore = acc) := by
  intro fuel
  induction fuel with
  | zero =>
    intro draws excluded acc attempt
    simp [fwdStreamLoop]
  | succ fuel ih =>
    intro draws excluded acc attempt
    rw [fwdStreamLoop]
    cases hsel : selectNode inFl cands excluded (draws.headD 0) with
    | none => simp
    | some n =>
      dsimp only
      have hn := selectNode_mem inFl cands excluded (draws.headD 0) n hsel
      by_cases hout : succeeds attempt
      · rw [if_pos hout]
        refine ⟨by simp, ?_, by simp, ?_, ?_⟩
        · intro a ha
          rcases List.mem_cons.mp ha with rfl | ha
          · exact hn.2
          · exact absurd ha (List.not_mem_nil a)
        · intro a ha
          rcases List.mem_cons.mp ha with rfl | ha
          · rfl
          · exact absurd ha (List.not_mem_nil a)
        · intro a ha
          exact congrArg StreamAttempt.accBefore (Option.some_inj.mp ha).symm
      · rw [if_neg hout]
        obtain ⟨ih1, ih2, ih3, ih4, ih5⟩ := ih draws.tail (n.url :: excluded)
          (acc ++ emit attempt) (attempt + 1)
        refine ⟨?_, ?_, ?_, ?_, ?_⟩
        · simpa using Nat.succ_le_succ ih1
        · intro a ha
          rcases List.mem_cons.mp ha with rfl | ha
          · exact hn.2
          · exact fun hmem => ih2 a ha (List.mem_cons_of_mem _ hmem)
        · refine List.nodup_cons.mpr ⟨?_, ih3⟩
          intro hmem
          rcases List.mem_map.mp hmem with ⟨b, hb, hbu⟩
          exact ih2 b hb (hbu ▸ List.mem_cons_self _ _)
        · intro a ha
          rcases List.mem_cons.mp ha with rfl | ha
          · rfl
          · exact ih4 a ha
        · intro a ha
          exact congrArg StreamAttempt.accBefore (Option.some_inj.mp ha).symm

/-- When every attempt fails, the streaming retry loop never reports success. -/
lemma fwdStreamLoop_allfail (inFl : String → Nat) (cands : List NodeInfo)
    (original : AgentGenerateRequest) (emit : Nat → String) (succeeds : Nat → Bool)
    (hfail : ∀ k, succeeds k = false) :
    ∀ (fuel : Nat) (draws : List ℚ) (excluded : List String) (acc : String) (attempt : Nat),
      (fwdStreamLoop inFl cands original emit succeeds draws excluded acc attempt fuel).2 = none := by
  intro fuel
  induction fuel with
  | zero =>
    intro draws excluded acc attempt
    simp [fwdStreamLoop]
  | succ fuel ih =>
    intro draws excluded acc attempt
    rw [fwdStreamLoop]
    cases hsel : selectNode inFl cands excluded (draws.headD 0) with
    | none => simp
    | some n =>
      dsimp only
      rw [if_neg (by simp [hfail attempt])]
      exact ih draws.tail (n.url :: excluded) (acc ++ emit attempt) (attempt + 1)

/-- C3: both forwarders build the pool once and fail with the
no-nodes-available error on an empty pool; otherwise they make at most
`min(|pool|, 5)` attempts, never attempt the same node URL twice in one call
(each chosen URL enters the excluded set before its attempt), and fail with
the all-nodes-failed error after the loop when every attempt fails. -/
theorem C3_retry_contract (inFl : String → Nat) (cands : List NodeInfo)
    (outcome : String → Bool) (draws : List ℚ) (original : AgentGenerateRequest)
    (emit : Nat → String) (succeeds : Nat → Bool) :
    (cands = [] →
      (forwardRequest inFl cands outcome draws).2 = Except.error FwdError.noNodesAvailable ∧
      (forwardStreamRequest inFl cands original emit succeeds draws).2 =
        Except.error FwdError.noNodesAvailable) ∧
    ((forwardRequest inFl cands outcome draws).1.length ≤ min cands.length 5 ∧
      (forwardRequest inFl cands outcome draws).1.Nodup) ∧
    (cands ≠ [] → (∀ u, outcome u = false) →
      (forwardRequest inFl cands outcome draws).2 = Except.error FwdError.allNodesFailed) ∧
    ((forwardStreamRequest inFl cands original emit succeeds draws).1.length ≤
        min cands.length 5 ∧
      ((forwardStreamRequest inFl cands original emit succeeds draws).1.map
        StreamAttempt.url).Nodup) ∧
    (cands ≠ [] → (∀ k, succeeds k = false) →
      (forwardStreamRequest inFl cands original emit succeeds draws).2 =
        Except.error FwdError.allNodesFailed) := by
  refine ⟨?_, ?_, ?_, ?_, ?_⟩
  · intro hc
    have h0 : cands.length = 0 := by simp [hc]
    constructor
    · simp only [forwardRequest]
      rw [if_pos h0]
    · simp only [forwardStreamRequest]
      rw [if_pos h0]
  · by_cases h0 : cands.length = 0
    · simp only [forwardRequest]
      rw [if_pos h0]
      simp
    · simp only [forwardRequest]
      rw [if_neg h0]
      obtain ⟨hl, _, hnd⟩ := fwdLoop_facts inFl cands outcome (min cands.length 5) draws []
      exact ⟨hl, hnd⟩
  · intro hc hfail
    have h0 : ¬ cands.length = 0 := by
      simpa using fun h => hc (List.length_eq_zero.mp h)
    simp only [forwardRequest]
    rw [if_neg h0]
    rw [fwdLoop_allfail inFl cands outcome hfail (min cands.length 5) draws []]
  · by_cases h0 : cands.length = 0
    · simp only [forwardStreamRequest]
      rw [if_pos h0]
      simp
    · simp only [forwardStreamRequest]
      rw [if_neg h0]
      obtain ⟨hl, _, hnd, _, _⟩ := fwdStreamLoop_facts inFl cands original emit succeeds
        (min cands.length 5) draws [] "" 0
      exact ⟨hl, hnd⟩
  · intro hc hfail
    have h0 : ¬ cands.length = 0 := by
      simpa using fun h => hc (List.length_eq_zero.mp h)
    simp only [forwardStreamRequest]
    rw [if_neg h0]
    rw [fwdStreamLoop_allfail inFl cands original emit succeeds hfail (min cands.length 5)
      draws [] "" 0]

/-- A trivial prompt-only request for the witnesses. -/
def reqPrompt : AgentGenerateRequest := { inputs := "hello", messages := none, parameters := none }

/-- Witness for `C3_retry_contract`: the empty pool yields the
no-nodes-available error, and a one-node pool where the attempt fails yields
the all-nodes-failed error, on both the unary and the streaming path. -/
theorem C3_retry_witness :
    (forwardRequest (fun _ => 0) [] (fun _ => false) []).2 =
      Except.error FwdError.noNodesAvailable ∧
    (forwardRequest (fun _ => 0) [wNode1] (fun _ => false) []).2 =
      Except.error FwdError.allNodesFailed ∧
    (forwardStreamRequest (fun _ => 0) [wNode1] reqPrompt (fun _ => "") (fun _ => false) []).2 =
      Except.error FwdError.allNodesFailed := by
  refine ⟨?_, ?_, ?_⟩
  · exact ((C3_retry_contract (fun _ => 0) [] (fun _ => false) [] reqPrompt (fun _ => "")
      (fun _ => false)).1 rfl).1
  · exact (C3_retry_contract (fun _ => 0) [wNode1] (fun _ => false) [] reqPrompt (fun _ => "")
      (fun _ => false)).2.2.1 (by simp) (fun u => rfl)
  · exact (C3_retry_contract (fun _ => 0) [wNode1] (fun _ => false) [] reqPrompt (fun _ => "")
      (fun _ => false)).2.2.2.2 (by simp) (fun k => rfl)

/-- C5: the continuation builder appends `{assistant, accumulated}` and the
literal continue instruction to a non-empty message list, leaving every other
field (prompt, max_tokens and sampling parameters) unchanged; on prompt-only
requests (no messages, or an empty message list, which is falsy in the
source) it appends the accumulated text after the marker.  In the streaming
forwarder, every attempt whose accumulated snapshot is empty sends the
original request and every other attempt sends exactly the continuation
request built from its snapshot; the first attempt's snapshot is always
empty, so the first attempt always sends the original request. -/
theorem C5_continuation (original : AgentGenerateRequest) (acc : String)
    (inFl : String → Nat) (cands : List NodeInfo) (emit : Nat → String)
    (succeeds : Nat → Bool) (draws : List ℚ) :
    (∀ msgs, original.messages = some msgs → msgs ≠ [] →
      buildContinuationRequest original acc =
        { original with messages := some (msgs ++
            [{ role := "assistant", content := acc },
             { role := "user", content := continueInstruction }]) }) ∧
    ((original.messages = none ∨ original.messages = some []) →
      buildContinuationRequest original acc =
        { original with inputs := original.inputs ++ continuationMarker ++ acc }) ∧
    (∀ a ∈ (forwardStreamRequest inFl cands original emit succeeds draws).1,
      a.request = if a.accBefore = "" then original
        else buildContinuationRequest original a.accBefore) ∧
    (∀ a, (forwardStreamRequest inFl cands original emit succeeds draws).1.head? = some a →
      a.accBefore = "") := by
  refine ⟨?_, ?_, ?_, ?_⟩
  · intro msgs hm hne
    unfold buildContinuationRequest
    rw [hm]
    dsimp only
    rw [if_pos (by simpa using hne)]
  · intro hm
    unfold buildContinuationRequest
    rcases hm with hm | hm
    · rw [hm]
    · rw [hm]
      dsimp only
      rw [if_neg (by simp)]
  · by_cases h0 : cands.length = 0
    · simp only [forwardStreamRequest]
      rw [if_pos h0]
      intro a ha
      exact absurd ha (List.not_mem_nil a)
    · simp only [forwardStreamRequest]
      rw [if_neg h0]
      exact (fwdStreamLoop_facts inFl cands original emit succeeds
        (min cands.length 5) draws [] "" 0).2.2.2.1
  · by_cases h0 : cands.length = 0
    · simp only [forwardStreamRequest]
      rw [if_pos h0]
      intro a ha
      exact Option.noConfusion ha
    · simp only [forwardStreamRequest]
      rw [if_neg h0]
      exact (fwdStreamLoop_facts inFl cands original emit succeeds
        (min cands.length 5) draws [] "" 0).2.2.2.2

/-- A messages-based request for the `C5_continuation` witness. -/
def reqMsg : AgentGenerateRequest :=
  { inputs := "", messages := some [{ role := "user", content := "hi" }], parameters := none }

/-- The accumulated text used by the `C5_continuation` witness. -/
def accPart : String := "partial text"

/-- Witness for `C5_continuation` at concrete requests: the messages form,
the prompt-only form, and the first streaming attempt sending the original
request. -/
theorem C5_continuation_witness :
    buildContinuationRequest reqMsg accPart =
      { reqMsg with messages := some ([{ role := "user", content := "hi" }] ++
          [{ role := "assistant", content := accPart },
           { role := "user", content := continueInstruction }]) } ∧
    buildContinuationRequest reqPrompt accPart =
      { reqPrompt with inputs := reqPrompt.inputs ++ continuationMarker ++ accPart } ∧
    (∀ a, (forwardStreamRequest (fun _ => 0) [wNode1] reqMsg (fun _ => "") (fun _ => true)
        []).1.head? = some a → a.accBefore = "") := by
  refine ⟨?_, ?_, ?_⟩
  · exact (C5_continuation reqMsg accPart (fun _ => 0) [] (fun _ => "") (fun _ => true) []).1
      [{ role := "user", content := "hi" }] rfl (by simp)
  · exact (C5_continuation reqPrompt accPart (fun _ => 0) [] (fun _ => "") (fun _ => true) []).2.1
      (Or.inl rfl)
  · exact (C5_continuation reqMsg accPart (fun _ => 0) [wNode1] (fun _ => "") (fun _ => true)
      []).2.2.2

/-- The protocol and hostname fields of a parsed URL, the only parts
`isValidNodeUrl` consults. -/
structure UrlParts where
  protocol : String
  hostname : String
deriving DecidableEq, Repr

/-- Characters allowed after the first letter of a URL scheme. -/
def isSchemeTailChar (c : Char) : Bool := c.isAlphanum || c = '+' || c = '-' || c = '.'

/-- Model of the fragment of the WHATWG URL parser that `isValidNodeUrl`
relies on (as implemented by the runtime's `new URL(...)`): the scheme is the
prefix before the first colon (lowercased, serialized with a trailing colon);
for URLs with a `//` authority the hostname is the authority up to the first
`/`, `?` or `#`, with userinfo up to the last `@` and any `:port` suffix
stripped, lowercased; an IPv6 host keeps its square brackets in `hostname`,
exactly as the WHATWG host serializer specifies; URLs without a colon fail to
parse, as does an empty host after `//`. -/
def parseUrl (s : String) : Option UrlParts :=
  let cs := s.data
  let scheme := cs.takeWhile (fun c => decide (c ≠ ':'))
  match cs.drop scheme.length with
  | ':' :: afterColon =>
    match scheme with
    | [] => none
    | c0 :: ctail =>
      if c0.isAlpha && ctail.all isSchemeTailChar then
        let protocol := String.mk (scheme.map Char.toLower) ++ ":"
        match afterColon with
        | '/' :: '/' :: rest2 =>
          let authority := rest2.takeWhile
            (fun c => decide (c ≠ '/' ∧ c ≠ '?' ∧ c ≠ '#'))
          let hostPort := (authority.reverse.takeWhile (fun c => decide (c ≠ '@'))).reverse
          match hostPort with
          | '[' :: rest3 =>
            if ']' ∈ rest3 then
              some { protocol := protocol,
                     hostname := String.mk
                       (('[' :: (rest3.takeWhile (fun c => decide (c ≠ ']'))).map Char.toLower)
                         ++ [']']) }
            else none
          | _ =>
            let host := hostPort.takeWhile (fun c => decide (c ≠ ':'))
            if host = [] then none
            else some { protocol := protocol, hostname := String.mk (host.map Char.toLower) }
        | _ => some { protocol := protocol, hostname := "" }
      else none
  | _ => none

/-- The loopback list of `isValidNodeUrl`, verbatim. -/
def localHosts : List String := ["localhost", "127.0.0.1", "0.0.0.0", "::1", "::"]

/-- Decimal value of a digit string, mirroring `parseInt(p, 10)` on the
all-digit strings the caller guarantees. -/
def digitsToNat (cs : List Char) : Nat := cs.foldl (fun a c => a * 10 + (c.toNat - 48)) 0

/-- Splitting on dots, mirroring `hostname.split('.')`. -/
def splitOnDot : List Char → List (List Char)
  | [] => [[]]
  | c :: rest =>
    match splitOnDot rest with
    | [] => [[c]]
    | g :: gs => if c = '.' then [] :: g :: gs else (c :: g) :: gs

/-- The private-range test of `isValidNodeUrl`: a four-part all-digit dotted
hostname whose octets fall in 10/8, 172.16/12, 192.168/16 or 169.254/16. -/
def isPrivateIpv4 (hostname : String) : Bool :=
  let parts := splitOnDot hostname.data
  if parts.length = 4 ∧ parts.all (fun p => decide (p ≠ []) && p.all Char.isDigit) = true then
    match parts.map digitsToNat with
    | [a, b, _, _] =>
      decide (a = 10 ∨ (a = 172 ∧ 16 ≤ b ∧ b ≤ 31) ∨ (a = 192 ∧ b = 168) ∨ (a = 169 ∧ b = 254))
    | _ => false
  else false

/-- Mirror of `isValidNodeUrl`: parse failure rejects; non-http(s) protocols
reject; hostnames on the loopback list reject; with private IPs allowed
everything else passes; otherwise private-range dotted-quad hostnames reject
and everything else passes. -/
def isValidNodeUrl (allowPrivateIps : Bool) (url : String) : Bool :=
  match parseUrl url with
  | none => false
  | some parsed =>
    if ¬ (parsed.protocol = "http:" ∨ parsed.protocol = "https:") then false
    else
      if parsed.hostname.lowerAscii ∈ localHosts then false
      else if allowPrivateIps then true
      else if isPrivateIpv4 parsed.hostname.lowerAscii then false
      else true

/-- The IPv6 loopback URL on which the validator misbehaves. -/
def ipv6LoopbackUrl : String := "http://[::1]:8080/"

/-- C6: the validator is a pure function of the URL string and the
ALLOW_PRIVATE_IPS flag (it is a function by construction), and for every flag
it rejects non-http(s) schemes and the listed loopback hostnames, rejects
private-range IPv4 hostnames unless the flag allows them, and accepts
everything else when the flag allows private IPs.  However the loopback
rejection misses the IPv6 loopback: the WHATWG hostname of an IPv6 literal
keeps its square brackets (`[::1]`), so the list entries `::1` and `::` can
never match, and `http://[::1]:8080/` is accepted under both flag values —
the code bug behind this claim's status. -/
theorem C6_url_validation :
    (∀ (flag : Bool) (url : String) (parts : UrlParts), parseUrl url = some parts →
      ¬ (parts.protocol = "http:" ∨ parts.protocol = "https:") →
      isValidNodeUrl flag url = false) ∧
    (∀ (flag : Bool) (url : String) (parts : UrlParts), parseUrl url = some parts →
      parts.hostname.lowerAscii ∈ localHosts →
      isValidNodeUrl flag url = false) ∧
    (∀ (url : String) (parts : UrlParts), parseUrl url = some parts →
      isPrivateIpv4 parts.hostname.lowerAscii = true →
      isValidNodeUrl false url = false) ∧
    (∀ (url : String) (parts : UrlParts), parseUrl url = some parts →
      (parts.protocol = "http:" ∨ parts.protocol = "https:") →
      parts.hostname.lowerAscii ∉ localHosts →
      isValidNodeUrl true url = true) ∧
    (parseUrl ipv6LoopbackUrl = some { protocol := "http:", hostname := "[::1]" } ∧
      isValidNodeUrl true ipv6LoopbackUrl = true ∧
      isValidNodeUrl false ipv6LoopbackUrl = true) := by
  refine ⟨?_, ?_, ?_, ?_, ?_, ?_, ?_⟩
  · intro flag url parts hp hproto
    unfold isValidNodeUrl
    rw [hp]
    dsimp only
    rw [if_pos hproto]
  · intro flag url parts hp hmem
    unfold isValidNodeUrl
    rw [hp]
    dsimp only
    by_cases hproto : ¬ (parts.protocol = "http:" ∨ parts.protocol = "https:")
    · rw [if_pos hproto]
    · rw [if_neg hproto, if_pos hmem]
  · intro url parts hp hpriv
    unfold isValidNodeUrl
    rw [hp]
    dsimp only
    by_cases hproto : ¬ (parts.protocol = "http:" ∨ parts.protocol = "https:")
    · rw [if_pos hproto]
    · rw [if_neg hproto]
      by_cases hmem : parts.hostname.lowerAscii ∈ localHosts
      · rw [if_pos hmem]
      · rw [if_neg hmem, if_neg Bool.false_ne_true, if_pos hpriv]
  · intro url parts hp hproto hmem
    unfold isValidNodeUrl
    rw [hp]
    dsimp only
    rw [if_neg (fun h => h hproto), if_neg hmem, if_pos rfl]
  · decide
  · decide
  · decide

/-- A non-http scheme for the `C6_url_validation` witness. -/
def urlFtp : String := "ftp://example.com/x"

/-- A loopback URL for the `C6_url_validation` witness. -/
def urlLocal : String := "http://localhost:3000"

/-- A private-range URL for the `C6_url_validation` witness. -/
def urlPrivate : String := "http://10.1.2.3/"

/-- Witness for `C6_url_validation` at concrete URLs: an ftp scheme and a
loopback host are rejected under both flags, and a 10/8 host is rejected
without the flag but accepted with it. -/
theorem C6_url_validation_witness :
    isValidNodeUrl true urlFtp = false ∧
    isValidNodeUrl true urlLocal = false ∧
    isValidNodeUrl false urlPrivate = false ∧
    isValidNodeUrl true urlPrivate = true := by
  obtain ⟨hA, hB, hC, hD, _⟩ := C6_url_validation
  refine ⟨?_, ?_, ?_, ?_⟩
  · exact hA true urlFtp { protocol := "ftp:", hostname := "example.com" }
      (by decide) (by decide)
  · exact hB true urlLocal { protocol := "http:", hostname := "localhost" }
      (by decide) (by decide)
  · exact hC urlPrivate { protocol := "http:", hostname := "10.1.2.3" }
      (by decide) (by decide)
  · exact hD urlPrivate { protocol := "http:", hostname := "10.1.2.3" }
      (by decide) (by decide) (by decide)

/-- The auth frame `{address, model, timestamp, signature}`, each field
possibly absent. -/
structure AuthMsg where
  address : Option String
  model : Option String
  timestamp : Option Int
  signature : Option String
deriving DecidableEq, Repr

/-- JavaScript falsiness of an optional string (`!x`): absent or empty. -/
def strFalsy : Option String → Bool
  | none => true
  | some v => decide (v = "")

/-- JavaScript falsiness of an optional numeric timestamp: absent or zero. -/
def tsFalsy : Option Int → Bool
  | none => true
  | some v => decide (v = 0)

/-- The value of an optional string field once known non-falsy. -/
def orEmpty : Option String → String
  | some v => v
  | none => ""

/-- The value of an optional timestamp field once known non-falsy. -/
def orZero : Option Int → Int
  | some v => v
  | none => 0

/-- Mirror of `JSON.stringify({ address, model, timestamp })`, the canonical
serialization signed by the worker (key order as in the object literal). -/
def serializeAuth (address model : String) (timestamp : Int) : String :=
  "\x7b\"address\":\"" ++ address ++ "\",\"model\":\"" ++ model ++
    "\",\"timestamp\":" ++ toString timestamp ++ "\x7d"

/-- The observable actions of the auth handler, in program order. -/
inductive RelayAction where
  | sendAuthError (message : String)
  | closeSelf (code : Nat)
  | closeOther (wsId : Nat) (code : Nat)
  | registerAgent (address : String)
  | sendAuthOk
deriving DecidableEq, Repr

/-- Mirror of a `ConnectedAgent` record, with the socket abstracted to an id
and an open flag (`readyState === OPEN`). -/
structure ConnectedAgent where
  wsId : Nat
  wsOpen : Bool
  address : String
  model : String
  connectedAt : Nat
deriving DecidableEq, Repr

/-- `this.agents.get(k)` on the association-list model of the map. -/
def lookupAgent (agents : List (String × ConnectedAgent)) (k : String) :
    Option ConnectedAgent :=
  (agents.find? (fun p => decide (p.1 = k))).map Prod.snd

/-- `this.agents.delete(k)`. -/
def eraseAgent (agents : List (String × ConnectedAgent)) (k : String) :
    List (String × ConnectedAgent) :=
  agents.filter (fun p => decide (p.1 ≠ k))

/-- `this.agents.set(k, v)`. -/
def setAgent (agents : List (String × ConnectedAgent)) (k : String) (v : ConnectedAgent) :
    List (String × ConnectedAgent) :=
  eraseAgent agents k ++ [(k, v)]

/-- The auth-error payload for missing fields. -/
def missingFieldsMsg : String := "Missing auth fields"

/-- The auth-error payload for timestamp drift. -/
def driftMsg : String := "Timestamp too old or too far in future"

/-- The auth-error payload for a bad signature. -/
def invalidSigMsg : String := "Invalid signature"

/-- Mirror of `handleAuth`: falsy-field check (4003), five-minute drift check
on the seconds clock (4004), signature verification over the canonical
serialization (4005, with `verify` abstracting `chainService.verifySignature`),
then replacement of any prior connection for the lowercased address (closed
with 4010) and registration of the new one.  Returns the emitted actions in
order, the authenticated address if any, and the updated agents map. -/
def handleAuth (verify : String → String → String → Bool) (nowSec : Int) (nowMs : Nat)
    (agents : List (String × ConnectedAgent)) (wsId : Nat) (msg : AuthMsg) :
    List RelayAction × Option String × List (String × ConnectedAgent) :=
  if strFalsy msg.address || strFalsy msg.model || tsFalsy msg.timestamp ||
      strFalsy msg.signature then
    ([RelayAction.sendAuthError missingFieldsMsg, RelayAction.closeSelf 4003], none, agents)
  else
    let address := orEmpty msg.address
    let model := orEmpty msg.model
    let timestamp := orZero msg.timestamp
    let signature := orEmpty msg.signature
    if 300 < (nowSec - timestamp).natAbs then
      ([RelayAction.sendAuthError driftMsg, RelayAction.closeSelf 4004], none, agents)
    else if verify (serializeAuth address model timestamp) signature address = false then
      ([RelayAction.sendAuthError invalidSigMsg, RelayAction.closeSelf 4005], none, agents)
    else
      match lookupAgent agents address.lowerAscii with
      | some old =>
        ([RelayAction.closeOther old.wsId 4010, RelayAction.registerAgent address.lowerAscii,
            RelayAction.sendAuthOk],
          some address.lowerAscii,
          setAgent (eraseAgent agents address.lowerAscii) address.lowerAscii
            ⟨wsId, true, address.lowerAscii, model, nowMs⟩)
      | none =>
        ([RelayAction.registerAgent address.lowerAscii, RelayAction.sendAuthOk],
          some address.lowerAscii,
          setAgent agents address.lowerAscii ⟨wsId, true, address.lowerAscii, model, nowMs⟩)

/-- Deleting a key removes every binding for it. -/
lemma find?_eraseAgent (l : List (String × ConnectedAgent)) (k : String) :
    (eraseAgent l k).find? (fun p => decide (p.1 = k)) = none := by
  rw [List.find?_eq_none]
  intro p hp
  have h2 := (List.mem_filter.mp hp).2
  simp only [decide_eq_true_eq] at h2 ⊢
  exact h2

/-- Setting a key makes it resolve to the new value. -/
lemma lookupAgent_set (l : List (String × ConnectedAgent)) (k : String) (v : ConnectedAgent) :
    lookupAgent (setAgent l k v) k = some v := by
  unfold lookupAgent setAgent
  rw [List.find?_append, find?_eraseAgent]
  simp

/-- C7: the authentication handshake sends an auth error and closes with 4003
when a field is missing, with 4004 when the fields are present but the
timestamp drifts more than 300 seconds from the gateway clock, and with 4005
when the signature does not verify over the canonical serialization under the
declared address; on success with a prior registration for the lowercased
address, the old socket is closed with 4010 before the new connection is
registered, and afterwards the address resolves to the new connection. -/
theorem C7_auth_handshake (verify : String → String → String → Bool) (nowSec : Int)
    (nowMs : Nat) (agents : List (String × ConnectedAgent)) (wsId : Nat) (msg : AuthMsg) :
    ((msg.address = none ∨ msg.model = none ∨ msg.timestamp = none ∨ msg.signature = none) →
      handleAuth verify nowSec nowMs agents wsId msg =
        ([RelayAction.sendAuthError missingFieldsMsg, RelayAction.closeSelf 4003],
          none, agents)) ∧
    (strFalsy msg.address = false → strFalsy msg.model = false →
      tsFalsy msg.timestamp = false → strFalsy msg.signature = false →
      300 < (nowSec - orZero msg.timestamp).natAbs →
      handleAuth verify nowSec nowMs agents wsId msg =
        ([RelayAction.sendAuthError driftMsg, RelayAction.closeSelf 4004], none, agents)) ∧
    (strFalsy msg.address = false → strFalsy msg.model = false →
      tsFalsy msg.timestamp = false → strFalsy msg.signature = false →
      (nowSec - orZero msg.timestamp).natAbs ≤ 300 →
      verify (serializeAuth (orEmpty msg.address) (orEmpty msg.model) (orZero msg.timestamp))
          (orEmpty msg.signature) (orEmpty msg.address) = false →
      handleAuth verify nowSec nowMs agents wsId msg =
        ([RelayAction.sendAuthError invalidSigMsg, RelayAction.closeSelf 4005], none, agents)) ∧
    (strFalsy msg.address = false → strFalsy msg.model = false →
      tsFalsy msg.timestamp = false → strFalsy msg.signature = false →
      (nowSec - orZero msg.timestamp).natAbs ≤ 300 →
      verify (serializeAuth (orEmpty msg.address) (orEmpty msg.model) (orZero msg.timestamp))
          (orEmpty msg.signature) (orEmpty msg.address) = true →
      ∀ old, lookupAgent agents (orEmpty msg.address).lowerAscii = some old →
        handleAuth verify nowSec nowMs agents wsId msg =
          ([RelayAction.closeOther old.wsId 4010,
              RelayAction.registerAgent (orEmpty msg.address).lowerAscii,
              RelayAction.sendAuthOk],
            some (orEmpty msg.address).lowerAscii,
            setAgent (eraseAgent agents (orEmpty msg.address).lowerAscii)
              (orEmpty msg.address).lowerAscii
              ⟨wsId, true, (orEmpty msg.address).lowerAscii, orEmpty msg.model, nowMs⟩) ∧
        lookupAgent (handleAuth verify nowSec nowMs agents wsId msg).2.2
            (orEmpty msg.address).lowerAscii =
          some ⟨wsId, true, (orEmpty msg.address).lowerAscii, orEmpty msg.model, nowMs⟩) := by
  refine ⟨?_, ?_, ?_, ?_⟩
  · intro hmiss
    unfold handleAuth
    have hcond : (strFalsy msg.address || strFalsy msg.model || tsFalsy msg.timestamp ||
        strFalsy msg.signature) = true := by
      rcases hmiss with h | h | h | h <;> simp [h, strFalsy, tsFalsy]
    rw [if_pos hcond]
  · intro h1 h2 h3 h4 hdrift
    unfold handleAuth
    rw [if_neg (by simp [h1, h2, h3, h4]), if_pos hdrift]
  · intro h1 h2 h3 h4 hdrift hsig
    unfold handleAuth
    rw [if_neg (by simp [h1, h2, h3, h4]), if_neg (by omega), if_pos hsig]
  · intro h1 h2 h3 h4 hdrift hsig old hold
    have hmain : handleAuth verify nowSec nowMs agents wsId msg =
        ([RelayAction.closeOther old.wsId 4010,
            RelayAction.registerAgent (orEmpty msg.address).lowerAscii,
            RelayAction.sendAuthOk],
          some (orEmpty msg.address).lowerAscii,
          setAgent (eraseAgent agents (orEmpty msg.address).lowerAscii)
            (orEmpty msg.address).lowerAscii
            ⟨wsId, true, (orEmpty msg.address).lowerAscii, orEmpty msg.model, nowMs⟩) := by
      unfold handleAuth
      rw [if_neg (by simp [h1, h2, h3, h4]), if_neg (by omega),
        if_neg (by simp [hsig]), hold]
    refine ⟨hmain, ?_⟩
    rw [hmain]
    exact lookupAgent_set _ _ _

/-- A verifier accepting everything, for witnesses. -/
def verifyAlways : String → String → String → Bool := fun _ _ _ => true

/-- A verifier rejecting everything, for witnesses. -/
def verifyNever : String → String → String → Bool := fun _ _ _ => false

/-- An auth frame missing its address. -/
def msgMissing : AuthMsg :=
  { address := none, model := some "model-m", timestamp := some 100, signature := some "sig" }

/-- A complete auth frame. -/
def msgGood : AuthMsg :=
  { address := some "0xAgent", model := some "model-m", timestamp := some 100,
    signature := some "sig" }

/-- A previously registered connection for the same address. -/
def oldConn : ConnectedAgent :=
  { wsId := 1, wsOpen := true, address := "0xagent", model := "model-m", connectedAt := 0 }

/-- Witness for `C7_auth_handshake` at concrete frames: 4003 on a missing
address, 4004 at 900 seconds of drift, 4005 on a rejected signature, and the
replacement action sequence (4010 close before registration) on success. -/
theorem C7_auth_witness :
    handleAuth verifyAlways 100 0 [] 2 msgMissing =
      ([RelayAction.sendAuthError missingFieldsMsg, RelayAction.closeSelf 4003], none, []) ∧
    handleAuth verifyAlways 1000 0 [] 2 msgGood =
      ([RelayAction.sendAuthError driftMsg, RelayAction.closeSelf 4004], none, []) ∧
    handleAuth verifyNever 100 0 [] 2 msgGood =
      ([RelayAction.sendAuthError invalidSigMsg, RelayAction.closeSelf 4005], none, []) ∧
    (handleAuth verifyAlways 100 0 [("0xagent", oldConn)] 2 msgGood).1 =
      [RelayAction.closeOther 1 4010, RelayAction.registerAgent "0xagent",
        RelayAction.sendAuthOk] ∧
    lookupAgent (handleAuth verifyAlways 100 0 [("0xagent", oldConn)] 2 msgGood).2.2
        "0xagent" =
      some { wsId := 2, wsOpen := true, address := "0xagent", model := "model-m",
             connectedAt := 0 } := by
  have hgood := (C7_auth_handshake verifyAlways 100 0 [("0xagent", oldConn)] 2 msgGood).2.2.2
    (by decide) (by decide) (by decide) (by decide) (by decide) rfl oldConn (by decide)
  refine ⟨?_, ?_, ?_, ?_, ?_⟩
  · exact (C7_auth_handshake verifyAlways 100 0 [] 2 msgMissing).1 (Or.inl rfl)
  · exact (C7_auth_handshake verifyAlways 1000 0 [] 2 msgGood).2.1
      (by decide) (by decide) (by decide) (by decide) (by decide)
  · exact (C7_auth_handshake verifyNever 100 0 [] 2 msgGood).2.2.1
      (by decide) (by decide) (by decide) (by decide) (by decide) rfl
  · exact congrArg Prod.fst hgood.1
  · exact hgood.2

/-- A pending request or stream reduced to its attribution. -/
structure PendingReq where
  agentAddress : String
deriving DecidableEq, Repr

/-- The relay state the completion claims speak about: the agents map and the
two pending maps (association lists keyed by request id). -/
structure RelayState where
  agents : List (String × ConnectedAgent)
  pendingRequests : List (String × PendingReq)
  pendingStreams : List (String × PendingReq)
deriving DecidableEq, Repr

/-- A completion callback invocation, tagged by which path fired it. -/
inductive Completion where
  | resolved (id : String)
  | rejectedError (id : String)
  | rejectedTimeout (id : String)
  | rejectedDisconnect (id : String) (address : String)
  | rejectedShutdown (id : String)
  | streamDone (id : String)
  | streamError (id : String)
  | streamTimeout (id : String)
  | streamDisconnect (id : String) (address : String)
  | streamShutdown (id : String)
deriving DecidableEq, Repr

/-- The pending id a completion belongs to. -/
def completionId : Completion → String
  | Completion.resolved id => id
  | Completion.rejectedError id => id
  | Completion.rejectedTimeout id => id
  | Completion.rejectedDisconnect id _ => id
  | Completion.rejectedShutdown id => id
  | Completion.streamDone id => id
  | Completion.streamError id => id
  | Completion.streamTimeout id => id
  | Completion.streamDisconnect id _ => id
  | Completion.streamShutdown id => id

/-- Map membership test (`this.pendingRequests.has(id)`-style via `get`). -/
def hasKey (l : List (String × PendingReq)) (id : String) : Bool :=
  l.any (fun p => decide (p.1 = id))

/-- Map deletion (`delete(id)`). -/
def eraseKey (l : List (String × PendingReq)) (id : String) : List (String × PendingReq) :=
  l.filter (fun p => decide (p.1 ≠ id))

/-- The events that touch pendings or the agents map. -/
inductive RelayEvent where
  | responseMsg (id : String)
  | chunkMsg (id : String)
  | doneMsg (id : String)
  | errorMsg (id : String)
  | requestTimeout (id : String)
  | streamTimeoutEvt (id : String)
  | closeEvt (agentAddress : String)
  | pingSweep
  | transportError (address : String)
  | shutdown
deriving DecidableEq, Repr

/-- Mirror of `rejectPendingForAgent`: delete every pending request and
stream attributed to the lowercased address, firing a disconnect rejection
for each (the delete precedes the callback in the source). -/
def rejectPendingForAgent (address : String) (st : RelayState) :
    RelayState × List Completion :=
  let addr := address.lowerAscii
  ({ st with
      pendingRequests := st.pendingRequests.filter
        (fun p => decide (p.2.agentAddress ≠ addr)),
      pendingStreams := st.pendingStreams.filter
        (fun p => decide (p.2.agentAddress ≠ addr)) },
    (st.pendingRequests.filter (fun p => decide (p.2.agentAddress = addr))).map
      (fun p => Completion.rejectedDisconnect p.1 addr) ++
    (st.pendingStreams.filter (fun p => decide (p.2.agentAddress = addr))).map
      (fun p => Completion.streamDisconnect p.1 addr))

/-- One event step of the relay.  Each completion path of the source removes
the pending entry and then fires its callback, modelled here as the pair of
the new state and the fired completions: a `response` resolves and deletes
the pending request; `done` finalizes a stream; `error` fails whichever maps
hold the id; the two timeout timers fail their pending (they only fire while
the entry exists, since every removal path clears the timer first); a socket
close deregisters the agent and disconnect-fails its pendings; the ping sweep
only deletes agents whose socket is not open; a transport error only logs;
shutdown fails everything and clears both maps. -/
def stepRelay (st : RelayState) : RelayEvent → RelayState × List Completion
  | RelayEvent.responseMsg id =>
    if hasKey st.pendingRequests id then
      ({ st with pendingRequests := eraseKey st.pendingRequests id },
        [Completion.resolved id])
    else (st, [])
  | RelayEvent.chunkMsg _ => (st, [])
  | RelayEvent.doneMsg id =>
    if hasKey st.pendingStreams id then
      ({ st with pendingStreams := eraseKey st.pendingStreams id },
        [Completion.streamDone id])
    else (st, [])
  | RelayEvent.errorMsg id =>
    let r1 :=
      if hasKey st.pendingRequests id then
        ({ st with pendingRequests := eraseKey st.pendingRequests id },
          [Completion.rejectedError id])
      else (st, ([] : List Completion))
    if hasKey r1.1.pendingStreams id then
      ({ r1.1 with pendingStreams := eraseKey r1.1.pendingStreams id },
        r1.2 ++ [Completion.streamError id])
    else r1
  | RelayEvent.requestTimeout id =>
    if hasKey st.pendingRequests id then
      ({ st with pendingRequests := eraseKey st.pendingRequests id },
        [Completion.rejectedTimeout id])
    else (st, [])
  | RelayEvent.streamTimeoutEvt id =>
    if hasKey st.pendingStreams id then
      ({ st with pendingStreams := eraseKey st.pendingStreams id },
        [Completion.streamTimeout id])
    else (st, [])
  | RelayEvent.closeEvt agentAddress =>
    if agentAddress = "" then (st, [])
    else
      rejectPendingForAgent agentAddress
        { st with agents := st.agents.filter (fun p => decide (p.1 ≠ agentAddress)) }
  | RelayEvent.pingSweep =>
    ({ st with agents := st.agents.filter (fun p => p.2.wsOpen) }, [])
  | RelayEvent.transportError _ => (st, [])
  | RelayEvent.shutdown =>
    ({ st with pendingRequests := [], pendingStreams := [] },
      st.pendingRequests.map (fun p => Completion.rejectedShutdown p.1) ++
        st.pendingStreams.map (fun p => Completion.streamShutdown p.1))

/-- Run a sequence of events, collecting all fired completions. -/
def runRelay : RelayState → List RelayEvent → RelayState × List Completion
  | st, [] => (st, [])
  | st, e :: es =>
    let r := stepRelay st e
    let rest := runRelay r.1 es
    (rest.1, r.2 ++ rest.2)

/-- How many pending entries (requests plus streams) carry the id. -/
def pendingCount (st : RelayState) (id : String) : Nat :=
  st.pendingRequests.countP (fun p => decide (p.1 = id)) +
    st.pendingStreams.countP (fun p => decide (p.1 = id))

/-- How many fired completions carry the id. -/
def completionsFor (id : String) (cs : List Completion) : Nat :=
  cs.countP (fun c => decide (completionId c = id))

/-- The address whose socket has died in the C8 counterexample. -/
def deadAgentAddr : String := "0xdead"

/-- The id of the pending request stranded by the ping sweep. -/
def pendingId1 : String := "req-1"

/-- A state with one dead-socket agent and one pending request attributed to
it. -/
def c8State : RelayState :=
  { agents := [(deadAgentAddr,
      { wsId := 1, wsOpen := false, address := deadAgentAddr, model := "model-m",
        connectedAt := 0 })],
    pendingRequests := [(pendingId1, { agentAddress := deadAgentAddr })],
    pendingStreams := [] }

/-- C8 counterexample: the 30-second ping sweep finds the worker's socket not
open and drops the worker — but it only deletes the agents-map entry; the
pending request attributed to that worker stays in the pending map and no
disconnect (or any other) completion fires, contradicting the claim that
every drop path fails the worker's pendings. -/
theorem C8_counterexample :
    (stepRelay c8State RelayEvent.pingSweep).1.agents = [] ∧
    (stepRelay c8State RelayEvent.pingSweep).1.pendingRequests =
      [(pendingId1, { agentAddress := deadAgentAddr })] ∧
    (stepRelay c8State RelayEvent.pingSweep).2 = [] := by
  refine ⟨rfl, rfl, rfl⟩

/-- Filtering never increases a count. -/
lemma countP_filter_le {α : Type} (l : List α) (p q : α → Bool) :
    (l.filter q).countP p ≤ l.countP p := by
  induction l with
  | nil => simp
  | cons a t ih =>
    by_cases hq : q a
    · by_cases hp : p a <;>
        simp [List.filter_cons, hq, List.countP_cons, hp] <;> omega
    · by_cases hp : p a <;>
        simp [List.filter_cons, hq, List.countP_cons, hp] <;> omega

/-- A filter and its complement split a count. -/
lemma countP_filter_split {α : Type} (l : List α) (p q : α → Bool) :
    (l.filter q).countP p + (l.filter (fun a => ! q a)).countP p = l.countP p := by
  induction l with
  | nil => simp
  | cons a t ih =>
    by_cases hq : q a
    · by_cases hp : p a <;>
        simp [List.filter_cons, hq, List.countP_cons, hp] <;> omega
    · by_cases hp : p a <;>
        simp [List.filter_cons, hq, List.countP_cons, hp] <;> omega

/-- After deleting a key, no entry for it is counted. -/
lemma countP_erase_self (l : List (String × PendingReq)) (id : String) :
    (eraseKey l id).countP (fun p => decide (p.1 = id)) = 0 := by
  rw [List.countP_eq_zero]
  intro p hp
  have h2 := (List.mem_filter.mp hp).2
  simp only [decide_eq_true_eq] at h2 ⊢
  exact h2

/-- A present key is counted at least once. -/
lemma hasKey_pos (l : List (String × PendingReq)) (id : String) (h : hasKey l id = true) :
    0 < l.countP (fun p => decide (p.1 = id)) := by
  rcases List.any_eq_true.mp h with ⟨p, hp, hpe⟩
  exact List.countP_pos_iff.mpr ⟨p, hp, hpe⟩

/-- Counting completions over an id-preserving rejection sweep: the fired
disconnects for an id plus the surviving entries for it add up to the
original count. -/
lemma count_reject_part (L : List (String × PendingReq)) (addr id : String)
    (f : String × PendingReq → Completion) (hf : ∀ p, completionId (f p) = p.1) :
    ((L.filter (fun p => decide (p.2.agentAddress = addr))).map f).countP
        (fun c => decide (completionId c = id)) +
      (L.filter (fun p => decide (p.2.agentAddress ≠ addr))).countP
        (fun p => decide (p.1 = id)) =
      L.countP (fun p => decide (p.1 = id)) := by
  rw [List.countP_map]
  have hconv : ((fun c => decide (completionId c = id)) ∘ f) =
      (fun p : String × PendingReq => decide (p.1 = id)) := by
    funext p
    simp [Function.comp, hf]
  rw [hconv]
  have hne : (fun p : String × PendingReq => decide (p.2.agentAddress ≠ addr)) =
      (fun p => ! decide (p.2.agentAddress = addr)) := by
    funext p
    simp [decide_not]
  rw [hne]
  exact countP_filter_split L _ _

/-- Counting completions over an id-preserving full sweep (shutdown). -/
lemma count_map_all (L : List (String × PendingReq)) (id : String)
    (f : String × PendingReq → Completion) (hf : ∀ p, completionId (f p) = p.1) :
    (L.map f).countP (fun c => decide (completionId c = id)) =
      L.countP (fun p => decide (p.1 = id)) := by
  rw [List.countP_map]
  have hconv : ((fun c => decide (completionId c = id)) ∘ f) =
      (fun p : String × PendingReq => decide (p.1 = id)) := by
    funext p
    simp [Function.comp, hf]
  rw [hconv]

/-- Removal of one id from one map: the fired completion for `id` plus the
surviving entries never exceed the original entries. -/
lemma removal_le (R : List (String × PendingReq)) (id0 id : String)
    (h : hasKey R id0 = true) (c : Completion) (hc : completionId c = id0) :
    completionsFor id [c] + (eraseKey R id0).countP (fun p => decide (p.1 = id)) ≤
      R.countP (fun p => decide (p.1 = id)) := by
  by_cases hid : id0 = id
  · subst hid
    have h0 := countP_erase_self R id0
    have h1 := hasKey_pos _ _ h
    have hone : completionsFor id0 [c] = 1 := by
      simp [completionsFor, hc]
    rw [hone, h0]
    omega
  · have hle := countP_filter_le R (fun p => decide (p.1 = id))
      (fun p => decide (p.1 ≠ id0))
    have hz : completionsFor id [c] = 0 := by
      simp [completionsFor, hc, hid]
    rw [hz]
    simpa [eraseKey] using hle

/-- Per-step at-most-once accounting: the completions a step fires for an id
plus the entries for it still pending afterwards never exceed the entries
pending before. -/
lemma stepRelay_count (st : RelayState) (e : RelayEvent) (id : String) :
    completionsFor id (stepRelay st e).2 + pendingCount (stepRelay st e).1 id ≤
      pendingCount st id := by
  cases e with
  | responseMsg id0 =>
    simp only [stepRelay]
    by_cases h : hasKey st.pendingRequests id0
    · rw [if_pos h]
      have hrem := removal_le st.pendingRequests id0 id h (Completion.resolved id0) rfl
      simp only [pendingCount]
      omega
    · rw [if_neg h]
      simp [completionsFor]
  | chunkMsg id0 =>
    simp [stepRelay, completionsFor]
  | doneMsg id0 =>
    simp only [stepRelay]
    by_cases h : hasKey st.pendingStreams id0
    · rw [if_pos h]
      have hrem := removal_le st.pendingStreams id0 id h (Completion.streamDone id0) rfl
      simp only [pendingCount]
      omega
    · rw [if_neg h]
      simp [completionsFor]
  | errorMsg id0 =>
    simp only [stepRelay]
    by_cases h1 : hasKey st.pendingRequests id0
    · rw [if_pos h1]
      by_cases h2 : hasKey st.pendingStreams id0
      · rw [if_pos h2]
        have hremR := removal_le st.pendingRequests id0 id h1
          (Completion.rejectedError id0) rfl
        have hremS := removal_le st.pendingStreams id0 id h2
          (Completion.streamError id0) rfl
        simp only [pendingCount, completionsFor, List.countP_append] at hremR hremS ⊢
        omega
      · rw [if_neg h2]
        have hremR := removal_le st.pendingRequests id0 id h1
          (Completion.rejectedError id0) rfl
        simp only [pendingCount]
        omega
    · rw [if_neg h1]
      by_cases h2 : hasKey st.pendingStreams id0
      · rw [if_pos h2]
        have hremS := removal_le st.pendingStreams id0 id h2
          (Completion.streamError id0) rfl
        simp only [pendingCount, completionsFor, List.countP_append, List.countP_nil]
          at hremS ⊢
        omega
      · rw [if_neg h2]
        simp [completionsFor]
  | requestTimeout id0 =>
    simp only [stepRelay]
    by_cases h : hasKey st.pendingRequests id0
    · rw [if_pos h]
      have hrem := removal_le st.pendingRequests id0 id h
        (Completion.rejectedTimeout id0) rfl
      simp only [pendingCount]
      omega
    · rw [if_neg h]
      simp [completionsFor]
  | streamTimeoutEvt id0 =>
    simp only [stepRelay]
    by_cases h : hasKey st.pendingStreams id0
    · rw [if_pos h]
      have hrem := removal_le st.pendingStreams id0 id h
        (Completion.streamTimeout id0) rfl
      simp only [pendingCount]
      omega
    · rw [if_neg h]
      simp [completionsFor]
  | closeEvt a =>
    simp only [stepRelay]
    by_cases ha : a = ""
    · rw [if_pos ha]
      simp [completionsFor]
    · rw [if_neg ha]
      have hr := count_reject_part st.pendingRequests a.lowerAscii id
        (fun p => Completion.rejectedDisconnect p.1 a.lowerAscii) (fun p => rfl)
      have hs := count_reject_part st.pendingStreams a.lowerAscii id
        (fun p => Completion.streamDisconnect p.1 a.lowerAscii) (fun p => rfl)
      simp only [rejectPendingForAgent, pendingCount, completionsFor, List.countP_append]
      omega
  | pingSweep =>
    simp [stepRelay, completionsFor, pendingCount]
  | transportError a =>
    simp [stepRelay, completionsFor]
  | shutdown =>
    have hr := count_map_all st.pendingRequests id
      (fun p => Completion.rejectedShutdown p.1) (fun p => rfl)
    have hs := count_map_all st.pendingStreams id
      (fun p => Completion.streamShutdown p.1) (fun p => rfl)
    simp only [stepRelay, completionsFor, pendingCount, List.countP_append,
      List.countP_nil]
    omega

/-- Trace-level at-most-once accounting. -/
lemma runRelay_count (st : RelayState) (events : List RelayEvent) (id : String) :
    completionsFor id (runRelay st events).2 + pendingCount (runRelay st events).1 id ≤
      pendingCount st id := by
  induction events generalizing st with
  | nil => simp [runRelay, completionsFor]
  | cons e es ih =>
    have h1 := stepRelay_count st e id
    have h2 := ih (stepRelay st e).1
    simp only [runRelay, completionsFor, List.countP_append] at h1 h2 ⊢
    omega

/-- C8 amended: only the socket close path fails a dropped worker's
pendings — when the close event fires for an authenticated address, every
pending request and stream attributed to it is removed and completed with a
disconnect completion; the 30-second ping sweep merely deletes the agents-map
entry (pendings untouched, nothing fired), and a transport error changes
nothing.  Across any sequence of reply, chunk, done, error, timeout,
disconnect, sweep and shutdown events, each pending id receives at most as
many completions as it had pending entries — in particular a uniquely-keyed
pending is completed at most once, because every completion path removes the
entry in the same atomic step that fires the callback (shutdown fires its
callbacks and clears the maps in one step as well). -/
theorem C8_amended :
    (∀ (st : RelayState) (addr : String), addr ≠ "" →
      (∀ p ∈ (stepRelay st (RelayEvent.closeEvt addr)).1.pendingRequests,
        p.2.agentAddress ≠ addr.lowerAscii) ∧
      (∀ p ∈ (stepRelay st (RelayEvent.closeEvt addr)).1.pendingStreams,
        p.2.agentAddress ≠ addr.lowerAscii) ∧
      (∀ p ∈ st.pendingRequests, p.2.agentAddress = addr.lowerAscii →
        Completion.rejectedDisconnect p.1 addr.lowerAscii ∈
          (stepRelay st (RelayEvent.closeEvt addr)).2) ∧
      (∀ p ∈ st.pendingStreams, p.2.agentAddress = addr.lowerAscii →
        Completion.streamDisconnect p.1 addr.lowerAscii ∈
          (stepRelay st (RelayEvent.closeEvt addr)).2)) ∧
    (∀ st : RelayState,
      (stepRelay st RelayEvent.pingSweep).1.pendingRequests = st.pendingRequests ∧
      (stepRelay st RelayEvent.pingSweep).1.pendingStreams = st.pendingStreams ∧
      (stepRelay st RelayEvent.pingSweep).2 = []) ∧
    (∀ (st : RelayState) (a : String), stepRelay st (RelayEvent.transportError a) = (st, [])) ∧
    (∀ (st : RelayState) (events : List RelayEvent) (id : String),
      completionsFor id (runRelay st events).2 + pendingCount (runRelay st events).1 id ≤
        pendingCount st id) := by
  refine ⟨?_, ?_, ?_, runRelay_count⟩
  · intro st addr ha
    simp only [stepRelay, if_neg ha, rejectPendingForAgent]
    refine ⟨?_, ?_, ?_, ?_⟩
    · intro p hp
      have h2 := (List.mem_filter.mp hp).2
      simpa using h2
    · intro p hp
      have h2 := (List.mem_filter.mp hp).2
      simpa using h2
    · intro p hp hattr
      apply List.mem_append_left
      exact List.mem_map.mpr ⟨p, List.mem_filter.mpr ⟨hp, by simpa using hattr⟩, rfl⟩
    · intro p hp hattr
      apply List.mem_append_right
      exact List.mem_map.mpr ⟨p, List.mem_filter.mpr ⟨hp, by simpa using hattr⟩, rfl⟩
  · intro st
    exact ⟨rfl, rfl, rfl⟩
  · intro st a
    rfl

/-- Witness for `C8_amended` at concrete data: closing the dead worker's
socket removes and disconnect-fails its pending request, and a trace that
resolves a pending then replays its timeout completes it exactly once. -/
theorem C8_amended_witness :
    Completion.rejectedDisconnect pendingId1 deadAgentAddr ∈
      (stepRelay c8State (RelayEvent.closeEvt deadAgentAddr)).2 ∧
    completionsFor pendingId1
        (runRelay c8State [RelayEvent.responseMsg pendingId1,
          RelayEvent.requestTimeout pendingId1]).2 +
      pendingCount
        (runRelay c8State [RelayEvent.responseMsg pendingId1,
          RelayEvent.requestTimeout pendingId1]).1 pendingId1 ≤
      pendingCount c8State pendingId1 := by
  constructor
  · have h := ((C8_amended.1 c8State deadAgentAddr (by decide)).2.2.1
      (pendingId1, { agentAddress := deadAgentAddr }) (by decide) (by decide))
    simpa using h
  · exact C8_amended.2.2.2 c8State
      [RelayEvent.responseMsg pendingId1, RelayEvent.requestTimeout pendingId1] pendingId1

/-- C10: after a successful re-authentication for an address that already has
a registered connection, the agents map holds the new connection and the old
socket was told to close with 4010; when the old socket's close event is then
processed, its handler — whose captured `agentAddress` is the same lowercased
address — deletes the agents-map entry (which at that point holds the NEW
connection) and disconnect-fails every pending request and stream attributed
to that address, so the relay ends with no registered agent for the address
even though the new socket is still open. -/
theorem C10_replacement_close (verify : String → String → String → Bool) (nowSec : Int)
    (nowMs : Nat) (st : RelayState) (wsNew : Nat) (msg : AuthMsg) (old : ConnectedAgent)
    (h1 : strFalsy msg.address = false) (h2 : strFalsy msg.model = false)
    (h3 : tsFalsy msg.timestamp = false) (h4 : strFalsy msg.signature = false)
    (h5 : (nowSec - orZero msg.timestamp).natAbs ≤ 300)
    (h6 : verify (serializeAuth (orEmpty msg.address) (orEmpty msg.model)
        (orZero msg.timestamp)) (orEmpty msg.signature) (orEmpty msg.address) = true)
    (hold : lookupAgent st.agents (orEmpty msg.address).lowerAscii = some old)
    (hne : (orEmpty msg.address).lowerAscii ≠ "") :
    lookupAgent (handleAuth verify nowSec nowMs st.agents wsNew msg).2.2
        (orEmpty msg.address).lowerAscii =
      some ⟨wsNew, true, (orEmpty msg.address).lowerAscii, orEmpty msg.model, nowMs⟩ ∧
    RelayAction.closeOther old.wsId 4010 ∈
      (handleAuth verify nowSec nowMs st.agents wsNew msg).1 ∧
    lookupAgent (stepRelay
        { st with agents := (handleAuth verify nowSec nowMs st.agents wsNew msg).2.2 }
        (RelayEvent.closeEvt ((orEmpty msg.address).lowerAscii))).1.agents
        ((orEmpty msg.address).lowerAscii) = none ∧
    (∀ p ∈ st.pendingRequests,
      p.2.agentAddress = ((orEmpty msg.address).lowerAscii).lowerAscii →
      Completion.rejectedDisconnect p.1 (((orEmpty msg.address).lowerAscii).lowerAscii) ∈
        (stepRelay
          { st with agents := (handleAuth verify nowSec nowMs st.agents wsNew msg).2.2 }
          (RelayEvent.closeEvt ((orEmpty msg.address).lowerAscii))).2) ∧
    (∀ p ∈ st.pendingStreams,
      p.2.agentAddress = ((orEmpty msg.address).lowerAscii).lowerAscii →
      Completion.streamDisconnect p.1 (((orEmpty msg.address).lowerAscii).lowerAscii) ∈
        (stepRelay
          { st with agents := (handleAuth verify nowSec nowMs st.agents wsNew msg).2.2 }
          (RelayEvent.closeEvt ((orEmpty msg.address).lowerAscii))).2) := by
  have hmain : handleAuth verify nowSec nowMs st.agents wsNew msg =
      ([RelayAction.closeOther old.wsId 4010,
          RelayAction.registerAgent (orEmpty msg.address).lowerAscii,
          RelayAction.sendAuthOk],
        some (orEmpty msg.address).lowerAscii,
        setAgent (eraseAgent st.agents (orEmpty msg.address).lowerAscii)
          (orEmpty msg.address).lowerAscii
          ⟨wsNew, true, (orEmpty msg.address).lowerAscii, orEmpty msg.model, nowMs⟩) := by
    unfold handleAuth
    rw [if_neg (by simp [h1, h2, h3, h4]), if_neg (by omega), if_neg (by simp [h6]), hold]
  refine ⟨?_, ?_, ?_, ?_, ?_⟩
  · rw [hmain]
    exact lookupAgent_set _ _ _
  · rw [hmain]
    exact List.mem_cons_self _ _
  · simp only [stepRelay, if_neg hne, rejectPendingForAgent]
    unfold lookupAgent
    have := find?_eraseAgent
      ({ st with agents := (handleAuth verify nowSec nowMs st.agents wsNew msg).2.2 } :
        RelayState).agents (orEmpty msg.address).lowerAscii
    unfold eraseAgent at this
    rw [this]
    rfl
  · intro p hp hattr
    simp only [stepRelay, if_neg hne, rejectPendingForAgent]
    apply List.mem_append_left
    exact List.mem_map.mpr ⟨p, List.mem_filter.mpr ⟨hp, by simpa using hattr⟩, rfl⟩
  · intro p hp hattr
    simp only [stepRelay, if_neg hne, rejectPendingForAgent]
    apply List.mem_append_right
    exact List.mem_map.mpr ⟨p, List.mem_filter.mpr ⟨hp, by simpa using hattr⟩, rfl⟩

/-- The relay state of the `C10_replacement_close` witness: one registered
connection for the address and one pending request attributed to it. -/
def c10State : RelayState :=
  { agents := [("0xagent", oldConn)],
    pendingRequests := [(pendingId1, { agentAddress := "0xagent" })],
    pendingStreams := [] }

/-- Witness for `C10_replacement_close` at concrete data: re-authentication
registers the new socket (id 2), and old socket's close event then leaves no
agent registered for the address and disconnect-fails the pending request. -/
theorem C10_replacement_witness :
    lookupAgent (handleAuth verifyAlways 100 0 c10State.agents 2 msgGood).2.2 "0xagent" =
      some { wsId := 2, wsOpen := true, address := "0xagent", model := "model-m",
             connectedAt := 0 } ∧
    lookupAgent (stepRelay
        { c10State with agents := (handleAuth verifyAlways 100 0 c10State.agents 2 msgGood).2.2 }
        (RelayEvent.closeEvt "0xagent")).1.agents "0xagent" = none ∧
    Completion.rejectedDisconnect pendingId1 "0xagent" ∈
      (stepRelay
        { c10State with agents := (handleAuth verifyAlways 100 0 c10State.agents 2 msgGood).2.2 }
        (RelayEvent.closeEvt "0xagent")).2 := by
  have h := C10_replacement_close verifyAlways 100 0 c10State 2 msgGood oldConn
    (by decide) (by decide) (by decide) (by decide) (by decide) rfl (by decide) (by decide)
  exact ⟨h.1, h.2.2.1, h.2.2.2.1 (pendingId1, { agentAddress := "0xagent" })
    (by decide) (by decide)⟩

/-- Witness for `C1_amended` at the concrete node `nodeAtTwoFailures` and
`now = 1000`: the threshold hypothesis holds there. -/
theorem C1_amended_witness :
    (markNodeFailed 1000 nodeAtTwoFailures).cooldownUntil = 1000 + cooldownDuration ∧
    (checkNodesHealthFailure 1000 nodeAtTwoFailures).status = NodeStatus.offline := by
  have h := C1_amended 1000 nodeAtTwoFailures
  exact ⟨h.1.2.2.1 (by decide), h.2.2.2.1 (by decide)⟩

end Plumise
